import Mathlib

/-!
# hours-signer: session state machine and annotation pipeline

A shallow embedding of `main.go`.  The program talks to four collaborators that
are not part of the repository: the operating system (files, clock, home
directory), the JSON codec, the PDF engine and the terminal widgets.  Their
answers are gathered in one record `Env` of functions, over which every
definition is parametrised; what the program itself does with the answers
(ordering of calls, error wrapping, state updates) is translated from the
source.

Effects are explicit: an action takes the file system and returns its result,
the file system afterwards and the trace of calls it made, in order.
-/

namespace HoursSigner

/-! ## Configuration -/

/-- The persisted configuration record. -/
structure Config where
  SignaturePath : String
  EmployeeName : String
  ManagerName : String
deriving DecidableEq, Repr

def DefaultConfig : Config :=
  { SignaturePath := "",
    EmployeeName := "JoÃ«l Grimberg",
    ManagerName := "Rob van der Pouw Kraan" }

/-! ## Files, engine descriptors and traces -/

/-- File contents (`[]byte`). -/
abbrev Bytes := List Nat

/-- The file system as the program addresses it through `os`: the contents of
every path that exists.  What the PDF engine keeps in its own configuration
directory is the engine's state and is not part of it. -/
abbrev FS := String → Option Bytes

/-- The file system after `path` has been given contents `data`. -/
def FS.put (fs : FS) (path : String) (data : Bytes) : FS :=
  fun p => if p = path then some data else fs p

/-- The file system after `path` has been unlinked. -/
def FS.del (fs : FS) (path : String) : FS :=
  fun p => if p = path then none else fs p

/-- An overlay descriptor built by the engine (`*model.Watermark`): it carries
the arguments it was built from. -/
inductive Watermark where
  | text (text desc : String) (onTop update : Bool)
  | image (fileName desc : String) (onTop update : Bool)
deriving DecidableEq, Repr

/-- One call made to a collaborator.  `addWatermarks` also records the error
the engine answered with (`none` for `nil`). -/
inductive Event where
  | readFile (path : String)
  | mkdirAll (path : String)
  | writeFile (path : String) (data : Bytes)
  | createTemp (dir pattern : String)
  | write (name : String) (data : Bytes)
  | close (name : String)
  | remove (name : String)
  | readContextFile (path : String)
  | newDefaultConfiguration
  | textWatermark (text desc : String)
  | imageWatermark (fileName desc : String)
  | addWatermarks (input : Bytes) (selectedPages : List String) (wm : Watermark)
      (err : Option String)
deriving DecidableEq, Repr

/-- A point in time as the program uses it (`time.Now()`). -/
structure Time where
  Year : Nat
  Month : Nat
  Day : Nat
deriving DecidableEq, Repr

/-- Messages delivered to the session (`tea.Msg`): a key press, identified by
`msg.String()`, a window resize, or anything else (widget-internal messages). -/
inductive Msg where
  | key (s : String)
  | windowSize (Width Height : Int)
  | other (tag : Nat)
deriving DecidableEq, Repr

/-- A text-input widget (`textinput.Model`), by the state the session sets and
reads: current value, placeholder, character limit (0 for none), width and
focus. -/
structure TextInput where
  value : String
  Placeholder : String
  CharLimit : Nat
  Width : Nat
  focus : Bool
deriving DecidableEq, Repr

/-- The file-browsing widget (`filepicker.Model`): the two settings the session
makes, and the widget's private state. -/
structure FilePicker where
  AllowedTypes : List String
  CurrentDirectory : String
  state : Nat
deriving DecidableEq, Repr

/-- A non-nil command issued by one of the widgets; the session passes it on
untouched. -/
structure WidgetCmd where
  tag : Nat
deriving DecidableEq, Repr

/-- The collaborators. -/
structure Env where
  -- operating system
  UserHomeDir : Except String String
  Join : List String → String
  Dir : String → String
  Getwd : String
  Now : Time
  Stat : FS → String → Option String
  ReadFile : FS → String → Except String Bytes
  MkdirAll : FS → String → Option String
  WriteFile : FS → String → Bytes → Option String
  CreateTemp : FS → String → String → Except String String
  Write : FS → String → Bytes → Option String
  -- JSON codec
  MarshalIndent : Config → Except String Bytes
  Unmarshal : Bytes → Config → Except String Config
  -- PDF engine
  ReadContextFile : FS → String → Except String Int
  TextWatermark : String → String → Option String
  ImageWatermark : FS → String → String → Option String
  AddWatermarks : FS → Bytes → List String → Watermark → Except String Bytes
  -- widgets (`tiSanitize` is the text input's sanitiser of stored text)
  tiSanitize : String → String
  tiUpdate : TextInput → Msg → TextInput × Option WidgetCmd
  fpInit : FilePicker → Option WidgetCmd
  fpUpdate : FilePicker → Msg → FilePicker × Option WidgetCmd
  fpDidSelectFile : FilePicker → Msg → Option String

/-! ## Actions -/

/-- What an action leaves behind: its result, the file system, and the calls it
made. -/
structure Run (α : Type) where
  result : Except String α
  fs : FS
  trace : List Event

/-- An action on the file system. -/
def Act (α : Type) : Type := FS → Run α

def Act.pure {α : Type} (a : α) : Act α :=
  fun fs => { result := .ok a, fs := fs, trace := [] }

/-- The run `r`, made after the calls `t`. -/
def Run.after {α : Type} (t : List Event) (r : Run α) : Run α :=
  { result := r.result, fs := r.fs, trace := t ++ r.trace }

/-- Sequencing: the second action runs only when the first returned no error. -/
def Act.bind {α β : Type} (x : Act α) (f : α → Act β) : Act β :=
  fun fs =>
    match x fs with
    | { result := .ok a, fs := fs1, trace := t1 } => (f a fs1).after t1
    | { result := .error e, fs := fs1, trace := t1 } =>
      { result := .error e, fs := fs1, trace := t1 }

instance : Monad Act where
  pure := Act.pure
  bind := Act.bind

/-- The action `return err`. -/
def fail {α : Type} (e : String) : Act α :=
  fun fs => { result := .error e, fs := fs, trace := [] }

/-- The wrapper `fmt.Errorf(pre + "%w", err)` around a failing call. -/
def wrapf {α : Type} (pre : String) (x : Act α) : Act α :=
  fun fs =>
    match x fs with
    | { result := .error e, fs := fs1, trace := t1 } =>
      { result := .error (pre ++ e), fs := fs1, trace := t1 }
    | r => r

/-- Runs `body` and then the deferred `cleanup`, whatever `body` returned. -/
def withDefer {α : Type} (cleanup : Act Unit) (body : Act α) : Act α :=
  fun fs =>
    match body fs with
    | { result := r, fs := fs1, trace := t1 } =>
      { result := r, fs := (cleanup fs1).fs, trace := t1 ++ (cleanup fs1).trace }

/-- A call that answers with an `error` only. -/
def errOnly (o : Option String) : Except String Unit :=
  match o with
  | none => .ok ()
  | some e => .error e

/-- The `error` inside a result. -/
def errOf {α : Type} (r : Except String α) : Option String :=
  match r with
  | .ok _ => none
  | .error e => some e

def osReadFile (E : Env) (path : String) : Act Bytes :=
  fun fs => { result := E.ReadFile fs path, fs := fs, trace := [.readFile path] }

/-- The call `os.WriteFile`: on success the path holds the data. -/
def osWriteFile (E : Env) (path : String) (data : Bytes) : Act Unit :=
  fun fs =>
    match E.WriteFile fs path data with
    | none => { result := .ok (), fs := fs.put path data, trace := [.writeFile path data] }
    | some e => { result := .error e, fs := fs, trace := [.writeFile path data] }

/-- The call `os.CreateTemp`: on success the new, empty file exists. -/
def osCreateTemp (E : Env) (dir pattern : String) : Act String :=
  fun fs =>
    match E.CreateTemp fs dir pattern with
    | .ok name => { result := .ok name, fs := fs.put name [], trace := [.createTemp dir pattern] }
    | .error e => { result := .error e, fs := fs, trace := [.createTemp dir pattern] }

/-- The call `f.Write` on the freshly created file. -/
def fileWrite (E : Env) (name : String) (data : Bytes) : Act Unit :=
  fun fs =>
    match E.Write fs name data with
    | none => { result := .ok (), fs := fs.put name data, trace := [.write name data] }
    | some e => { result := .error e, fs := fs, trace := [.write name data] }

def fileClose (name : String) : Act Unit :=
  fun fs => { result := .ok (), fs := fs, trace := [.close name] }

/-- The call `os.Remove`, whose error the program drops: the path is gone
afterwards. -/
def osRemove (name : String) : Act Unit :=
  fun fs => { result := .ok (), fs := fs.del name, trace := [.remove name] }

def apiReadContextFile (E : Env) (path : String) : Act Int :=
  fun fs => { result := E.ReadContextFile fs path, fs := fs, trace := [.readContextFile path] }

/-- The call `pdfmodel.NewDefaultConfiguration()`: it cannot fail; the
configuration it answers with is the one every overlay application gets. -/
def pdfmodelNewDefaultConfiguration : Act Unit :=
  fun fs => { result := .ok (), fs := fs, trace := [.newDefaultConfiguration] }

def apiTextWatermark (E : Env) (text desc : String) (onTop update : Bool) : Act Watermark :=
  fun fs =>
    { result := match E.TextWatermark text desc with
        | none => .ok (.text text desc onTop update)
        | some e => .error e,
      fs := fs, trace := [.textWatermark text desc] }

def apiImageWatermark (E : Env) (fileName desc : String) (onTop update : Bool) :
    Act Watermark :=
  fun fs =>
    { result := match E.ImageWatermark fs fileName desc with
        | none => .ok (.image fileName desc onTop update)
        | some e => .error e,
      fs := fs, trace := [.imageWatermark fileName desc] }

/-- One overlay application: reads `input`, answers with the whole re-serialised
document. -/
def apiAddWatermarks (E : Env) (input : Bytes) (selectedPages : List String)
    (wm : Watermark) : Act Bytes :=
  fun fs =>
    let r := E.AddWatermarks fs input selectedPages wm
    { result := r, fs := fs, trace := [.addWatermarks input selectedPages wm (errOf r)] }

def osMkdirAll (E : Env) (path : String) : Act Unit :=
  fun fs => { result := errOnly (E.MkdirAll fs path), fs := fs, trace := [.mkdirAll path] }

def jsonMarshalIndent (E : Env) (cfg : Config) : Act Bytes :=
  fun fs => { result := E.MarshalIndent cfg, fs := fs, trace := [] }

/-! ## Configuration file -/

def ConfigPath (E : Env) : String :=
  match E.UserHomeDir with
  | .error _ => ""
  | .ok home => E.Join [home, ".config", "hours-signer", "config.json"]

def ConfigExists (E : Env) (fs : FS) : Bool :=
  (E.Stat fs (ConfigPath E)).isNone

def LoadConfig (E : Env) (fs : FS) : Config :=
  let cfg := DefaultConfig
  let configPath := ConfigPath E
  if configPath = "" then cfg
  else
    match E.ReadFile fs configPath with
    | .error _ => cfg
    | .ok data =>
      match E.Unmarshal data cfg with
      | .error _ => DefaultConfig
      | .ok cfg => cfg

def SaveConfig (E : Env) (cfg : Config) : Act Unit :=
  let configPath := ConfigPath E
  if configPath = "" then fail "could not determine config path"
  else do
    let configDir := E.Dir configPath
    wrapf "failed to create config directory: " (osMkdirAll E configDir)
    let data ← wrapf "failed to marshal config: " (jsonMarshalIndent E cfg)
    wrapf "failed to write config: " (osWriteFile E configPath data)

/-! ## PDF signing logic -/

/-- The step "expand ~ to home directory" of `getSignatureData`. -/
def expandHome (E : Env) (signaturePath : String) : String :=
  if signaturePath.get 0 = '~' then
    match E.UserHomeDir with
    | .ok home => E.Join [home, signaturePath.drop 1]
    | .error _ => signaturePath
  else signaturePath

def getSignatureData (E : Env) (signaturePath : String) : Act Bytes :=
  if signaturePath = "" then
    fail "signature path is required - please configure it first"
  else
    let signaturePath := expandHome E signaturePath
    wrapf "failed to read signature file: " (osReadFile E signaturePath)

/-- Zero-padded decimal of width two (`%02d`). -/
def pad2 (n : Nat) : String :=
  if n < 10 then "0" ++ toString n else toString n

/-- Zero-padded decimal of width four (the layout `2006`). -/
def pad4 (n : Nat) : String :=
  if n < 10 then "000" ++ toString n
  else if n < 100 then "00" ++ toString n
  else if n < 1000 then "0" ++ toString n
  else toString n

/-- The layout `02-01-2006`. -/
def formatDate (t : Time) : String :=
  pad2 t.Day ++ "-" ++ pad2 t.Month ++ "-" ++ pad4 t.Year

def signPDF (E : Env) (inputPath outputPath employeeName managerName signaturePath : String) :
    Act Unit := do
  let inputData ← wrapf "failed to read input file: " (osReadFile E inputPath)
  let pageCount ← wrapf "failed to read PDF context: " (apiReadContextFile E inputPath)
  pdfmodelNewDefaultConfiguration
  let sigData ← getSignatureData E signaturePath
  let sigFile ← wrapf "failed to create temp file: " (osCreateTemp E "" "signature-*.png")
  withDefer (osRemove sigFile) do
    wrapf "failed to write signature: " (fileWrite E sigFile sigData)
    fileClose sigFile
    let pageSelection := [toString pageCount]
    let currentDate := formatDate E.Now
    let employeeLabel := "Werknemer: " ++ employeeName
    let wmEmployeeLabel ← wrapf "failed to create employee label watermark: "
      (apiTextWatermark E employeeLabel
        "font:Helvetica, points:10, pos:bl, off:40 210, scale:1 abs, rot:0" true false)
    let employeeDateLabel := "Datum: " ++ currentDate
    let wmEmployeeDate ← wrapf "failed to create employee date watermark: "
      (apiTextWatermark E employeeDateLabel
        "font:Helvetica, points:10, pos:bl, off:40 195, scale:1 abs, rot:0" true false)
    let wmHandtekeningLabel ← wrapf "failed to create handtekening label watermark: "
      (apiTextWatermark E "Handtekening:"
        "font:Helvetica, points:10, pos:bl, off:40 180, scale:1 abs, rot:0" true false)
    let wmSignature ← wrapf "failed to create signature watermark: "
      (apiImageWatermark E sigFile "pos:bl, off:120 90, scale:.35 abs, rot:0" true false)
    let managerLabel := "Manager: " ++ managerName
    let wmManagerLabel ← wrapf "failed to create manager label watermark: "
      (apiTextWatermark E managerLabel
        "font:Helvetica, points:10, pos:bl, off:350 210, scale:1 abs, rot:0" true false)
    let wmManagerDate ← wrapf "failed to create manager date watermark: "
      (apiTextWatermark E "Datum:"
        "font:Helvetica, points:10, pos:bl, off:350 195, scale:1 abs, rot:0" true false)
    let wmManagerHandtekening ← wrapf "failed to create manager handtekening label watermark: "
      (apiTextWatermark E "Handtekening:"
        "font:Helvetica, points:10, pos:bl, off:350 180, scale:1 abs, rot:0" true false)
    let buf ← wrapf "failed to add employee label: "
      (apiAddWatermarks E inputData pageSelection wmEmployeeLabel)
    let buf ← wrapf "failed to add employee date: "
      (apiAddWatermarks E buf pageSelection wmEmployeeDate)
    let buf ← wrapf "failed to add handtekening label: "
      (apiAddWatermarks E buf pageSelection wmHandtekeningLabel)
    let buf ← wrapf "failed to add signature: "
      (apiAddWatermarks E buf pageSelection wmSignature)
    let buf ← wrapf "failed to add manager label: "
      (apiAddWatermarks E buf pageSelection wmManagerLabel)
    let buf ← wrapf "failed to add manager date: "
      (apiAddWatermarks E buf pageSelection wmManagerDate)
    let buf ← wrapf "failed to add manager handtekening label: "
      (apiAddWatermarks E buf pageSelection wmManagerHandtekening)
    wrapf "failed to write output file: " (osWriteFile E outputPath buf)

/-! ## TUI model -/

inductive screen where
  | screenSetupWelcome
  | screenSetupSignature
  | screenSetupEmployee
  | screenSetupManager
  | screenSetupConfirm
  | screenMain
  | screenFilePicker
  | screenSigning
  | screenResult
deriving DecidableEq, Repr

/-- A command returned to the runtime (`tea.Cmd`): `nil`, `tea.Quit`,
`textinput.Blink`, or a command of a widget. -/
inductive Cmd where
  | none
  | Quit
  | Blink
  | widget (c : WidgetCmd)
deriving DecidableEq, Repr

/-- A widget's answer as a `tea.Cmd`. -/
def Cmd.ofWidget (c : Option WidgetCmd) : Cmd :=
  match c with
  | .none => .none
  | .some c => .widget c

def TextInput.New : TextInput :=
  { value := "", Placeholder := "", CharLimit := 0, Width := 0, focus := false }

def TextInput.Value (t : TextInput) : String := t.value

/-- The widget's `SetValue`: the text is sanitised (tabs and newlines become
spaces) and, when a character limit is set, cut to its first `CharLimit`
characters. -/
def TextInput.SetValue (E : Env) (t : TextInput) (s : String) : TextInput :=
  let runes := E.tiSanitize s
  { t with value :=
      if 0 < t.CharLimit ∧ t.CharLimit < runes.length then
        String.mk (runes.data.take t.CharLimit)
      else runes }

def TextInput.Focus (t : TextInput) : TextInput := { t with focus := true }

def TextInput.Blur (t : TextInput) : TextInput := { t with focus := false }

/-- The slice of the three text inputs, by index. -/
structure Inputs where
  i0 : TextInput
  i1 : TextInput
  i2 : TextInput
deriving DecidableEq, Repr

structure model where
  screen : screen
  config : Config
  configExists : Bool
  inputs : Inputs
  focusIndex : Int
  filepicker : FilePicker
  selectedFile : String
  resultMsg : String
  resultErr : Option String
  width : Int
  height : Int
deriving DecidableEq, Repr

def FilePicker.New : FilePicker :=
  { AllowedTypes := [], CurrentDirectory := ".", state := 0 }

def initialModel (E : Env) (fs : FS) : model :=
  let configExists := ConfigExists E fs
  let cfg := if configExists then LoadConfig E fs else DefaultConfig
  -- Signature path input
  let input0 := { TextInput.New with
    Placeholder := "~/.config/hours-signer/signature.png", CharLimit := 256, Width := 50 }
  -- Employee name input
  let input1 := { ({ TextInput.New with Placeholder := "JoÃ«l Grimberg" }).SetValue E
    cfg.EmployeeName with CharLimit := 100, Width := 50 }
  -- Manager name input
  let input2 := { ({ TextInput.New with Placeholder := "Rob van der Pouw Kraan" }).SetValue E
    cfg.ManagerName with CharLimit := 100, Width := 50 }
  -- File picker
  let fp := { FilePicker.New with AllowedTypes := [".pdf"], CurrentDirectory := E.Getwd }
  let startScreen := if !configExists then screen.screenSetupWelcome else screen.screenMain
  { screen := startScreen,
    config := cfg,
    configExists := configExists,
    inputs := { i0 := input0, i1 := input1, i2 := input2 },
    focusIndex := 0,
    filepicker := fp,
    selectedFile := "",
    resultMsg := "",
    resultErr := .none,
    width := 0,
    height := 0 }

/-- What one call of `Update` leaves behind: the new model, the command, the
file system and the calls made. -/
structure Step where
  next : model
  cmd : Cmd
  fs : FS
  trace : List Event

/-- A transition that touches no file. -/
def Step.pure (r : model × Cmd) (fs : FS) : Step :=
  { next := r.1, cmd := r.2, fs := fs, trace := [] }

def model.updateSetupWelcome (m : model) (msg : Msg) : model × Cmd :=
  match msg with
  | .key k =>
    if k = "enter" ∨ k = " " then
      ({ m with screen := .screenSetupSignature,
                inputs := { m.inputs with i0 := m.inputs.i0.Focus } }, .Blink)
    else (m, .none)
  | _ => (m, .none)

def model.updateSetupSignature (E : Env) (m : model) (msg : Msg) : model × Cmd :=
  let fallthrough : model × Cmd :=
    let r := E.tiUpdate m.inputs.i0 msg
    ({ m with inputs := { m.inputs with i0 := r.1 } }, Cmd.ofWidget r.2)
  match msg with
  | .key k =>
    if k = "enter" then
      let val := m.inputs.i0.Value
      if val = "" then
        -- Signature path is required - don't proceed
        (m, .none)
      else
        ({ m with config := { m.config with SignaturePath := val },
                  screen := .screenSetupEmployee,
                  inputs := { m.inputs with i0 := m.inputs.i0.Blur, i1 := m.inputs.i1.Focus } },
         .Blink)
    else fallthrough
  | _ => fallthrough

def model.updateSetupEmployee (E : Env) (m : model) (msg : Msg) : model × Cmd :=
  let fallthrough : model × Cmd :=
    let r := E.tiUpdate m.inputs.i1 msg
    ({ m with inputs := { m.inputs with i1 := r.1 } }, Cmd.ofWidget r.2)
  match msg with
  | .key k =>
    if k = "enter" then
      let val := m.inputs.i1.Value
      let val := if val = "" then m.inputs.i1.Placeholder else val
      ({ m with config := { m.config with EmployeeName := val },
                screen := .screenSetupManager,
                inputs := { m.inputs with i1 := m.inputs.i1.Blur, i2 := m.inputs.i2.Focus } },
       .Blink)
    else fallthrough
  | _ => fallthrough

def model.updateSetupManager (E : Env) (m : model) (msg : Msg) : model × Cmd :=
  let fallthrough : model × Cmd :=
    let r := E.tiUpdate m.inputs.i2 msg
    ({ m with inputs := { m.inputs with i2 := r.1 } }, Cmd.ofWidget r.2)
  match msg with
  | .key k =>
    if k = "enter" then
      let val := m.inputs.i2.Value
      let val := if val = "" then m.inputs.i2.Placeholder else val
      ({ m with config := { m.config with ManagerName := val },
                screen := .screenSetupConfirm,
                inputs := { m.inputs with i2 := m.inputs.i2.Blur } },
       .none)
    else fallthrough
  | _ => fallthrough

def model.updateSetupConfirm (E : Env) (m : model) (msg : Msg) (fs : FS) : Step :=
  match msg with
  | .key k =>
    if k = "enter" ∨ k = "y" then
      let r := SaveConfig E m.config fs
      match r.result with
      | .error err =>
        { next := { m with resultErr := some err, screen := .screenResult },
          cmd := .none, fs := r.fs, trace := r.trace }
      | .ok _ =>
        { next := { m with configExists := true, screen := .screenMain },
          cmd := .none, fs := r.fs, trace := r.trace }
    else if k = "n" then
      Step.pure ({ m with screen := .screenSetupSignature,
                          inputs := { m.inputs with i0 := m.inputs.i0.Focus } }, .Blink) fs
    else Step.pure (m, .none) fs
  | _ => Step.pure (m, .none) fs

def model.updateMain (E : Env) (m : model) (msg : Msg) : model × Cmd :=
  match msg with
  | .key k =>
    if k = "s" ∨ k = "1" then
      ({ m with screen := .screenFilePicker }, Cmd.ofWidget (E.fpInit m.filepicker))
    else if k = "c" ∨ k = "2" then
      -- Pre-fill inputs with current config values
      ({ m with inputs := { i0 := (m.inputs.i0.SetValue E m.config.SignaturePath).Focus,
                            i1 := m.inputs.i1.SetValue E m.config.EmployeeName,
                            i2 := m.inputs.i2.SetValue E m.config.ManagerName },
                screen := .screenSetupSignature }, .Blink)
    else (m, .none)
  | _ => (m, .none)

def model.updateFilePicker (E : Env) (m : model) (msg : Msg) (fs : FS) : Step :=
  let r := E.fpUpdate m.filepicker msg
  let m := { m with filepicker := r.1 }
  match E.fpDidSelectFile m.filepicker msg with
  | some path =>
    let m := { m with selectedFile := path, screen := .screenSigning }
    -- Sign the PDF
    let now := E.Now
    let output := "Urenstaat-" ++ toString now.Year ++ "-" ++ pad2 now.Month ++ "-Joel-Grimberg.pdf"
    let s := signPDF E path output m.config.EmployeeName m.config.ManagerName
      m.config.SignaturePath fs
    let m :=
      match s.result with
      | .error err => { m with resultErr := some err, resultMsg := "" }
      | .ok _ => { m with resultErr := .none, resultMsg := output }
    { next := { m with screen := .screenResult }, cmd := .none, fs := s.fs, trace := s.trace }
  | none => Step.pure (m, Cmd.ofWidget r.2) fs

def model.updateResult (m : model) (msg : Msg) : model × Cmd :=
  match msg with
  | .key k =>
    if k = "enter" ∨ k = " " then
      ({ m with screen := .screenMain, resultErr := .none, resultMsg := "" }, .none)
    else (m, .none)
  | _ => (m, .none)

/-- The part of `Update` ahead of the per-screen dispatch: the window size, the
quit key and the cancel key.  `none` means the dispatch runs. -/
def model.updateGlobal (m : model) (msg : Msg) : Option (model × Cmd) :=
  match msg with
  | .windowSize w h => some ({ m with width := w, height := h }, .none)
  | .key k =>
    if k = "ctrl+c" ∨ k = "q" then
      if m.screen = .screenMain ∨ m.screen = .screenSetupWelcome ∨ m.screen = .screenResult then
        some (m, .Quit)
      else .none
    else if k = "esc" then
      if m.screen = .screenFilePicker then
        some ({ m with screen := .screenMain }, .none)
      else .none
    else .none
  | _ => .none

def model.Update (E : Env) (m : model) (msg : Msg) (fs : FS) : Step :=
  match m.updateGlobal msg with
  | some r => Step.pure r fs
  | .none =>
    match m.screen with
    | .screenSetupWelcome => Step.pure (m.updateSetupWelcome msg) fs
    | .screenSetupSignature => Step.pure (m.updateSetupSignature E msg) fs
    | .screenSetupEmployee => Step.pure (m.updateSetupEmployee E msg) fs
    | .screenSetupManager => Step.pure (m.updateSetupManager E msg) fs
    | .screenSetupConfirm => m.updateSetupConfirm E msg fs
    | .screenMain => Step.pure (m.updateMain E msg) fs
    | .screenFilePicker => m.updateFilePicker E msg fs
    | .screenResult => Step.pure (m.updateResult msg) fs
    | .screenSigning => Step.pure (m, .none) fs

/-- The session states the program can be in: those of `initialModel` and those
`Update` makes of them, whatever the collaborators answer. -/
inductive Reachable : model → Prop where
  | init (E : Env) (fs : FS) : Reachable (initialModel E fs)
  | step (E : Env) (fs : FS) (m : model) (msg : Msg) :
      Reachable m → Reachable (m.Update E msg fs).next

/-! ## Reading runs and traces -/

/-- The property `Q` of what the action `x` leaves behind when started on `fs`. -/
def Act.wp {α : Type} (x : Act α) (fs : FS)
    (Q : Except String α → FS → List Event → Prop) : Prop :=
  Q (x fs).result (x fs).fs (x fs).trace

def Event.isAddWatermarks : Event → Bool
  | .addWatermarks _ _ _ _ => true
  | _ => false

def Event.isWriteFile : Event → Bool
  | .writeFile _ _ => true
  | _ => false

/-- The overlay applications of a trace, in order. -/
def applications (t : List Event) : List Event := t.filter Event.isAddWatermarks

/-- The answers the overlay applications of a trace got, in order: `none` for
success, `some e` for the error `e`. -/
def applied (t : List Event) : List (Option String) :=
  t.filterMap fun ev =>
    match ev with
    | .addWatermarks _ _ _ err => some err
    | _ => none

/-- The `os.WriteFile` calls of a trace, in order. -/
def writes (t : List Event) : List Event := t.filter Event.isWriteFile

/-! ## The pipeline as the specification words it -/

/-- Spec: the names by which an error identifies the seven overlay steps, in
order. -/
def overlayStepNames : List String :=
  ["employee label", "employee date", "handtekening label", "signature",
   "manager label", "manager date", "manager handtekening label"]

/-- Spec: the decimal digit of the units of `d`, as a character. -/
def digit (d : Nat) : Char := Char.ofNat (48 + d % 10)

/-- Spec: a date written DD-MM-YYYY: the two digits of the day, the two of the
month and the four of the year, with dashes between. -/
def dateDDMMYYYY (t : Time) : String :=
  String.mk
    [ digit (t.Day / 10), digit t.Day, '-',
      digit (t.Month / 10), digit t.Month, '-',
      digit (t.Year / 1000), digit (t.Year / 100), digit (t.Year / 10), digit t.Year ]

/-- Spec: one overlay element: a text or an image, its offset in points from the
bottom-left corner and, for an image, its scale in hundredths. -/
inductive OverlaySpec where
  | text (content : String) (x y : Nat)
  | image (fileName : String) (x y : Nat) (scaleHundredths : Nat)
deriving DecidableEq, Repr

/-- Spec: the seven overlay elements of a signing run, in order. -/
def overlaySpecs (employeeName managerName currentDate sigFile : String) : List OverlaySpec :=
  [ .text ("Werknemer: " ++ employeeName) 40 210,
    .text ("Datum: " ++ currentDate) 40 195,
    .text "Handtekening:" 40 180,
    .image sigFile 120 90 35,
    .text ("Manager: " ++ managerName) 350 210,
    .text "Datum:" 350 195,
    .text "Handtekening:" 350 180 ]

/-- Spec: the engine descriptor of an overlay element: Helvetica 10 points for
text, anchored bottom-left, absolute scale, no rotation, on top. -/
def OverlaySpec.toWatermark : OverlaySpec → Watermark
  | .text content x y =>
    .text content
      ("font:Helvetica, points:10, pos:bl, off:" ++ toString x ++ " " ++ toString y ++
        ", scale:1 abs, rot:0") true false
  | .image fileName x y s =>
    .image fileName
      ("pos:bl, off:" ++ toString x ++ " " ++ toString y ++ ", scale:." ++ toString s ++
        " abs, rot:0") true false

/-- Spec: the overlay phase, a left fold of the engine's apply operation over the
list of descriptors, stopping at the first failure. -/
def overlayFold (E : Env) (selectedPages : List String) (input : Bytes)
    (wms : List Watermark) : Act Bytes :=
  wms.foldlM (fun buf wm => apiAddWatermarks E buf selectedPages wm) input

/-- Spec: what a committed name field stands for: its value, or its placeholder
when it was left empty. -/
def TextInput.committed (t : TextInput) : String :=
  if t.Value = "" then t.Placeholder else t.Value

/-- The wizard's bookkeeping: past the signature step the signature field is what
the draft holds and is not empty; past the employee step the draft's employee
name is what the employee field stands for; on the confirm screen the same holds
of the manager name. -/
def wizardInv (m : model) : Prop :=
  ((m.screen = .screenSetupEmployee ∨ m.screen = .screenSetupManager ∨
      m.screen = .screenSetupConfirm) →
    m.inputs.i0.Value = m.config.SignaturePath ∧ m.config.SignaturePath ≠ "") ∧
  ((m.screen = .screenSetupManager ∨ m.screen = .screenSetupConfirm) →
    m.config.EmployeeName = m.inputs.i1.committed) ∧
  (m.screen = .screenSetupConfirm → m.config.ManagerName = m.inputs.i2.committed)

/-! ## Sample collaborators -/

/-- A file system holding a one-page timesheet and a signature image. -/
def sampleFS : FS :=
  fun p =>
    if p = "in.pdf" then some [37, 80, 68, 70]
    else if p = "sig.png" then some [137, 80, 78, 71]
    else none

/-- Collaborators that always succeed on existing files. -/
def sampleEnv : Env :=
  { UserHomeDir := .ok "/home/joel",
    Join := fun parts => "/".intercalate parts,
    Dir := fun p => p ++ "/..",
    Getwd := "/home/joel",
    Now := { Year := 2026, Month := 3, Day := 9 },
    Stat := fun fs p => if (fs p).isSome then none else some "no such file or directory",
    ReadFile := fun fs p =>
      match fs p with
      | some d => .ok d
      | none => .error ("open " ++ p ++ ": no such file or directory"),
    MkdirAll := fun _ _ => none,
    WriteFile := fun _ _ _ => none,
    CreateTemp := fun _ _ _ => .ok "/tmp/signature-1.png",
    Write := fun _ _ _ => none,
    MarshalIndent := fun _ => .ok [123, 125],
    Unmarshal := fun _ cfg => .ok cfg,
    ReadContextFile := fun fs p =>
      match fs p with
      | some _ => .ok 1
      | none => .error ("open " ++ p ++ ": no such file or directory"),
    TextWatermark := fun _ _ => none,
    ImageWatermark := fun _ _ _ => none,
    AddWatermarks := fun _ d _ _ => .ok (d ++ [1]),
    tiSanitize := fun s =>
      String.mk (s.data.map fun c =>
        if c = Char.ofNat 9 ∨ c = Char.ofNat 10 then ' ' else c),
    tiUpdate := fun t _ => (t, none),
    fpInit := fun _ => none,
    fpUpdate := fun fp _ => (fp, none),
    fpDidSelectFile := fun _ _ => none }

/-- As `sampleEnv`, with an engine that cannot apply image overlays. -/
def noImageEnv : Env :=
  { sampleEnv with
    AddWatermarks := fun _ d _ wm =>
      match wm with
      | .image _ _ _ _ => .error "unsupported image"
      | .text _ _ _ _ => .ok (d ++ [1]) }

/-- As `sampleEnv`, with a configuration directory that cannot be written. -/
def readOnlyEnv : Env :=
  { sampleEnv with WriteFile := fun _ _ _ => some "permission denied" }

/-- A file system in which a configuration file exists. -/
def configuredFS : FS :=
  fun p => if p = "/home/joel/.config/hours-signer/config.json" then some [123, 125] else sampleFS p

/-- As `sampleEnv`, with a configuration file that names a signature and a
manager and has an empty employee name. -/
def editedEnv : Env :=
  { sampleEnv with
    Unmarshal := fun _ _ =>
      .ok { SignaturePath := "sig.png", EmployeeName := "", ManagerName := "Rob" } }

/-- A session started on the edited configuration: on Main. -/
def editedMain : model := initialModel editedEnv configuredFS

/-- The same session after "configure": on SetupSignature. -/
def editedSignature : model := (editedMain.Update editedEnv (.key "c") configuredFS).next

/-- The same session after the confirm key: on SetupEmployee, with an empty
employee field. -/
def editedEmployee : model :=
  (editedSignature.Update editedEnv (.key "enter") configuredFS).next

/-- The same session after the confirm key: on SetupManager. -/
def editedManager : model :=
  (editedEmployee.Update editedEnv (.key "enter") configuredFS).next

/-- The same session after the confirm key: on SetupConfirm. -/
def editedSession : model :=
  (editedManager.Update editedEnv (.key "enter") configuredFS).next

/-- As `sampleEnv`, with a configuration file whose employee name is 150 times
the letter a. -/
def longNameEnv : Env :=
  { sampleEnv with
    Unmarshal := fun _ _ =>
      .ok { SignaturePath := "sig.png",
            EmployeeName := String.mk (List.replicate 150 'a'),
            ManagerName := "Rob" } }

/-- A session started on the configuration with the long employee name: on
Main. -/
def longNameMain : model := initialModel longNameEnv configuredFS

/-- A first-run session: welcome, then the confirm key once more on the empty
signature field. -/
def sampleSession : model :=
  let m0 := initialModel sampleEnv sampleFS
  (m0.Update sampleEnv (.key "enter") sampleFS).next

set_option maxHeartbeats 4000000
set_option maxRecDepth 100000

/-! ## Reading an action step by step -/

theorem wp_bind {α β : Type} (x : Act α) (f : α → Act β) (fs : FS)
    (Q : Except String β → FS → List Event → Prop) :
    Act.wp (x >>= f) fs Q ↔
      Act.wp x fs (fun r fs1 t1 =>
        match r with
        | .ok a => Act.wp (f a) fs1 (fun r2 fs2 t2 => Q r2 fs2 (t1 ++ t2))
        | .error e => Q (.error e) fs1 t1) := by
  show Act.wp (Act.bind x f) fs Q ↔ _
  unfold Act.wp Act.bind
  rcases hx : x fs with ⟨r, fs1, t1⟩
  cases r <;> simp [Run.after]

theorem wp_wrapf {α : Type} (pre : String) (x : Act α) (fs : FS)
    (Q : Except String α → FS → List Event → Prop) :
    Act.wp (wrapf pre x) fs Q ↔
      Act.wp x fs (fun r fs1 t1 =>
        match r with
        | .ok a => Q (.ok a) fs1 t1
        | .error e => Q (.error (pre ++ e)) fs1 t1) := by
  unfold Act.wp wrapf
  rcases hx : x fs with ⟨r, fs1, t1⟩
  cases r <;> simp

theorem wp_withDefer {α : Type} (c : Act Unit) (x : Act α) (fs : FS)
    (Q : Except String α → FS → List Event → Prop) :
    Act.wp (withDefer c x) fs Q ↔
      Act.wp x fs (fun r fs1 t1 => Q r (c fs1).fs (t1 ++ (c fs1).trace)) := by
  unfold Act.wp withDefer
  rcases hx : x fs with ⟨r, fs1, t1⟩
  simp

theorem wp_fail {α : Type} (e : String) (fs : FS)
    (Q : Except String α → FS → List Event → Prop) :
    Act.wp (fail e) fs Q ↔ Q (.error e) fs [] := Iff.rfl

theorem wp_osReadFile (E : Env) (p : String) (fs : FS)
    (Q : Except String Bytes → FS → List Event → Prop) :
    Act.wp (osReadFile E p) fs Q ↔ Q (E.ReadFile fs p) fs [.readFile p] := Iff.rfl

theorem wp_apiReadContextFile (E : Env) (p : String) (fs : FS)
    (Q : Except String Int → FS → List Event → Prop) :
    Act.wp (apiReadContextFile E p) fs Q ↔
      Q (E.ReadContextFile fs p) fs [.readContextFile p] := Iff.rfl

theorem wp_osCreateTemp (E : Env) (d p : String) (fs : FS)
    (Q : Except String String → FS → List Event → Prop) :
    Act.wp (osCreateTemp E d p) fs Q ↔
      match E.CreateTemp fs d p with
      | .ok name => Q (.ok name) (fs.put name []) [.createTemp d p]
      | .error e => Q (.error e) fs [.createTemp d p] := by
  unfold Act.wp osCreateTemp
  cases E.CreateTemp fs d p <;> simp

theorem wp_fileWrite (E : Env) (n : String) (d : Bytes) (fs : FS)
    (Q : Except String Unit → FS → List Event → Prop) :
    Act.wp (fileWrite E n d) fs Q ↔
      match E.Write fs n d with
      | none => Q (.ok ()) (fs.put n d) [.write n d]
      | some e => Q (.error e) fs [.write n d] := by
  unfold Act.wp fileWrite
  cases E.Write fs n d <;> simp

theorem wp_osWriteFile (E : Env) (n : String) (d : Bytes) (fs : FS)
    (Q : Except String Unit → FS → List Event → Prop) :
    Act.wp (osWriteFile E n d) fs Q ↔
      match E.WriteFile fs n d with
      | none => Q (.ok ()) (fs.put n d) [.writeFile n d]
      | some e => Q (.error e) fs [.writeFile n d] := by
  unfold Act.wp osWriteFile
  cases E.WriteFile fs n d <;> simp

theorem wp_fileClose (n : String) (fs : FS)
    (Q : Except String Unit → FS → List Event → Prop) :
    Act.wp (fileClose n) fs Q ↔ Q (.ok ()) fs [.close n] := Iff.rfl

theorem wp_pdfmodelNewDefaultConfiguration (fs : FS)
    (Q : Except String Unit → FS → List Event → Prop) :
    Act.wp pdfmodelNewDefaultConfiguration fs Q ↔
      Q (.ok ()) fs [.newDefaultConfiguration] := Iff.rfl

theorem wp_apiTextWatermark (E : Env) (t d : String) (a b : Bool) (fs : FS)
    (Q : Except String Watermark → FS → List Event → Prop) :
    Act.wp (apiTextWatermark E t d a b) fs Q ↔
      match E.TextWatermark t d with
      | none => Q (.ok (.text t d a b)) fs [.textWatermark t d]
      | some e => Q (.error e) fs [.textWatermark t d] := by
  unfold Act.wp apiTextWatermark
  cases E.TextWatermark t d <;> simp

theorem wp_apiImageWatermark (E : Env) (t d : String) (a b : Bool) (fs : FS)
    (Q : Except String Watermark → FS → List Event → Prop) :
    Act.wp (apiImageWatermark E t d a b) fs Q ↔
      match E.ImageWatermark fs t d with
      | none => Q (.ok (.image t d a b)) fs [.imageWatermark t d]
      | some e => Q (.error e) fs [.imageWatermark t d] := by
  unfold Act.wp apiImageWatermark
  cases E.ImageWatermark fs t d <;> simp

theorem wp_apiAddWatermarks (E : Env) (i : Bytes) (s : List String) (w : Watermark) (fs : FS)
    (Q : Except String Bytes → FS → List Event → Prop) :
    Act.wp (apiAddWatermarks E i s w) fs Q ↔
      match E.AddWatermarks fs i s w with
      | .ok o => Q (.ok o) fs [.addWatermarks i s w none]
      | .error e => Q (.error e) fs [.addWatermarks i s w (some e)] := by
  unfold Act.wp apiAddWatermarks
  cases E.AddWatermarks fs i s w <;> simp [errOf]

theorem wp_getSignatureData (E : Env) (sig : String) (fs : FS)
    (Q : Except String Bytes → FS → List Event → Prop) :
    Act.wp (getSignatureData E sig) fs Q ↔
      if sig = "" then Q (.error "signature path is required - please configure it first") fs []
      else Act.wp (wrapf "failed to read signature file: "
        (osReadFile E (expandHome E sig))) fs Q := by
  unfold getSignatureData
  split <;> simp [wp_fail]

theorem wp_of_forall {α : Type} (x : Act α) (fs : FS)
    (Q : Except String α → FS → List Event → Prop) (h : ∀ r fs1 t, Q r fs1 t) :
    Act.wp x fs Q := h _ _ _

theorem osRemove_fs (n : String) (fs : FS) : (osRemove n fs).fs = fs.del n := rfl

theorem osRemove_trace (n : String) (fs : FS) : (osRemove n fs).trace = [.remove n] := rfl

theorem FS.del_same (fs : FS) (n : String) : fs.del n n = none := by
  simp [FS.del]

/-! ## The annotation pipeline -/

/-- C1, as the code has it: with an empty signature path `signPDF` always fails,
never calls `os.CreateTemp` (no temporary file is created) and never calls
`os.WriteFile` (the destination file is not created: whatever is at the
destination afterwards was there before), but only after reading the source
file and, when that worked, opening it with the engine; the failure is the
configuration error exactly when both worked, and the failure of the read or of
the open otherwise. -/
theorem signPDF_empty_signature (E : Env) (fs : FS)
    (inputPath outputPath employeeName managerName : String) :
    (signPDF E inputPath outputPath employeeName managerName "" fs).result =
      (match E.ReadFile fs inputPath with
       | .error e => .error ("failed to read input file: " ++ e)
       | .ok _ =>
         match E.ReadContextFile fs inputPath with
         | .error e => .error ("failed to read PDF context: " ++ e)
         | .ok _ => .error "signature path is required - please configure it first") ∧
    (signPDF E inputPath outputPath employeeName managerName "" fs).trace =
      (match E.ReadFile fs inputPath with
       | .error _ => [.readFile inputPath]
       | .ok _ =>
         match E.ReadContextFile fs inputPath with
         | .error _ => [.readFile inputPath, .readContextFile inputPath]
         | .ok _ =>
           [.readFile inputPath, .readContextFile inputPath, .newDefaultConfiguration]) ∧
    (∀ dir pattern, Event.createTemp dir pattern ∉
      (signPDF E inputPath outputPath employeeName managerName "" fs).trace) ∧
    writes (signPDF E inputPath outputPath employeeName managerName "" fs).trace = [] ∧
    ∀ d, (signPDF E inputPath outputPath employeeName managerName "" fs).fs outputPath =
      some d → fs outputPath = some d := by
  show Act.wp (signPDF E inputPath outputPath employeeName managerName "") fs
    (fun r fs1 t => r = _ ∧ t = _ ∧ (∀ dir pattern, Event.createTemp dir pattern ∉ t) ∧
      writes t = [] ∧ ∀ d, fs1 outputPath = some d → fs outputPath = some d)
  unfold signPDF
  simp only [wp_bind, wp_wrapf, wp_osReadFile, wp_apiReadContextFile,
    wp_pdfmodelNewDefaultConfiguration, wp_getSignatureData]
  cases E.ReadFile fs inputPath with
  | error e => simp [writes, Event.isWriteFile]
  | ok d =>
    cases E.ReadContextFile fs inputPath with
    | error e => simp [writes, Event.isWriteFile]
    | ok n => simp [writes, Event.isWriteFile]

/-- C1, refuted as stated: on a readable one-page timesheet the call with an
empty signature path reads the source file and opens it with the engine before
it fails; and on a missing source file it fails with the read error, not with
the configuration error. -/
theorem signPDF_empty_signature_reads_source :
    (signPDF sampleEnv "in.pdf" "out.pdf" "Joel" "Rob" "" sampleFS).trace =
      [.readFile "in.pdf", .readContextFile "in.pdf", .newDefaultConfiguration] ∧
    (signPDF sampleEnv "missing.pdf" "out.pdf" "Joel" "Rob" "" sampleFS).result =
      .error "failed to read input file: open missing.pdf: no such file or directory" :=
  ⟨by decide, rfl⟩

/-- C4: the temporary signature file, the fresh name `os.CreateTemp` hands out,
does not exist once `signPDF` has returned, whatever it returned. -/
theorem signPDF_temp_file_absent (E : Env) (fs : FS)
    (inputPath outputPath employeeName managerName signaturePath name : String)
    (hname : E.CreateTemp fs "" "signature-*.png" = .ok name) (hfresh : fs name = none) :
    (signPDF E inputPath outputPath employeeName managerName signaturePath fs).fs name = none := by
  show Act.wp (signPDF E inputPath outputPath employeeName managerName signaturePath) fs
    (fun _ fs1 _ => fs1 name = none)
  unfold signPDF
  simp only [wp_bind, wp_wrapf, wp_osReadFile, wp_apiReadContextFile,
    wp_pdfmodelNewDefaultConfiguration,
    wp_getSignatureData, wp_osCreateTemp, hname]
  cases E.ReadFile fs inputPath with
  | error e => simpa using hfresh
  | ok d =>
    cases E.ReadContextFile fs inputPath with
    | error e => simpa using hfresh
    | ok n =>
      by_cases hsig : signaturePath = ""
      · simpa [hsig] using hfresh
      · simp only [hsig, if_false]
        split
        · rw [wp_withDefer]
          exact wp_of_forall _ _ _ (fun _ fs1 _ => FS.del_same fs1 name)
        · exact hfresh

/-- C2: when the `k`-th overlay application of a run of `signPDF` fails, with error
`e`, it is the first to fail (those before it succeeded), the call fails with the
message of exactly that step, no further application is made, `os.WriteFile` is
never called, and whatever is at the destination afterwards was there before. -/
theorem signPDF_overlay_failure (E : Env) (fs : FS)
    (inputPath outputPath employeeName managerName signaturePath : String)
    (k : Nat) (e : String) (hk1 : 1 ≤ k) (hk7 : k ≤ 7)
    (hfail : (applied (signPDF E inputPath outputPath employeeName managerName signaturePath
      fs).trace)[k - 1]? = some (some e)) :
    (∀ i, i < k - 1 →
      (applied (signPDF E inputPath outputPath employeeName managerName signaturePath
        fs).trace)[i]? = some none) ∧
    (∃ name, overlayStepNames[k - 1]? = some name ∧
      (signPDF E inputPath outputPath employeeName managerName signaturePath fs).result =
        .error ("failed to add " ++ name ++ ": " ++ e)) ∧
    (applied (signPDF E inputPath outputPath employeeName managerName signaturePath
      fs).trace).length = k ∧
    writes (signPDF E inputPath outputPath employeeName managerName signaturePath fs).trace = [] ∧
    ∀ d, (signPDF E inputPath outputPath employeeName managerName signaturePath fs).fs
      outputPath = some d → fs outputPath = some d := by
  revert hfail
  show Act.wp (signPDF E inputPath outputPath employeeName managerName signaturePath) fs
    (fun r fs1 t => (applied t)[k - 1]? = some (some e) →
      (∀ i, i < k - 1 → (applied t)[i]? = some none) ∧
      (∃ name, overlayStepNames[k - 1]? = some name ∧
        r = .error ("failed to add " ++ name ++ ": " ++ e)) ∧
      (applied t).length = k ∧ writes t = [] ∧
      ∀ d, fs1 outputPath = some d → fs outputPath = some d)
  unfold signPDF
  simp only [wp_bind, wp_wrapf, wp_withDefer, wp_osReadFile, wp_apiReadContextFile,
    wp_pdfmodelNewDefaultConfiguration,
    wp_getSignatureData, wp_osCreateTemp, wp_fileWrite, wp_fileClose, wp_apiTextWatermark,
    wp_apiImageWatermark, wp_apiAddWatermarks, wp_osWriteFile, osRemove_fs, osRemove_trace]
  repeat' split
  all_goals intro h
  all_goals simp only [applied, List.filterMap_append, List.filterMap_cons, List.filterMap_nil,
    List.nil_append, List.append_nil, List.getElem?_nil, List.singleton_append] at h
  all_goals first
    | exact absurd h (by simp)
    | (interval_cases k <;> simp at h
       all_goals subst h
       all_goals simp [applied, writes, overlayStepNames, Event.isWriteFile, FS.del, FS.put]
       all_goals first
         | (intro d hne; simp [hne])
         | exact ⟨fun i hi => by interval_cases i <;> rfl, fun d hne => by simp [hne]⟩)


theorem overlayFold_nil (E : Env) (sel : List String) (d : Bytes) (fs : FS) :
    overlayFold E sel d [] fs = { result := .ok d, fs := fs, trace := [] } := rfl

theorem overlayFold_cons_ok (E : Env) (sel : List String) (d d1 : Bytes) (wm : Watermark)
    (wms : List Watermark) (fs : FS) (h : E.AddWatermarks fs d sel wm = .ok d1) :
    overlayFold E sel d (wm :: wms) fs =
      (overlayFold E sel d1 wms fs).after [.addWatermarks d sel wm none] := by
  show Act.bind (apiAddWatermarks E d sel wm) (fun b => overlayFold E sel b wms) fs = _
  simp [Act.bind, apiAddWatermarks, h, errOf]

theorem overlaySpecs_watermarks (employeeName managerName currentDate sigFile : String) :
    (overlaySpecs employeeName managerName currentDate sigFile).map OverlaySpec.toWatermark =
      [ .text ("Werknemer: " ++ employeeName)
          "font:Helvetica, points:10, pos:bl, off:40 210, scale:1 abs, rot:0" true false,
        .text ("Datum: " ++ currentDate)
          "font:Helvetica, points:10, pos:bl, off:40 195, scale:1 abs, rot:0" true false,
        .text "Handtekening:"
          "font:Helvetica, points:10, pos:bl, off:40 180, scale:1 abs, rot:0" true false,
        .image sigFile "pos:bl, off:120 90, scale:.35 abs, rot:0" true false,
        .text ("Manager: " ++ managerName)
          "font:Helvetica, points:10, pos:bl, off:350 210, scale:1 abs, rot:0" true false,
        .text "Datum:"
          "font:Helvetica, points:10, pos:bl, off:350 195, scale:1 abs, rot:0" true false,
        .text "Handtekening:"
          "font:Helvetica, points:10, pos:bl, off:350 180, scale:1 abs, rot:0" true false ] := by
  rfl

/-- The trace of a run of `signPDF` that returned no error: every call
succeeded, and the trace is the full sequence of calls. -/
theorem signPDF_ok_trace (E : Env) (fs : FS)
    (inputPath outputPath employeeName managerName signaturePath : String)
    (P : List Event → Prop)
    (hP : ∀ (inputData : Bytes) (N : Int) (sigData : Bytes) (sigFile : String)
      (d1 d2 d3 d4 d5 d6 d7 : Bytes),
      E.ReadFile fs inputPath = .ok inputData →
      E.ReadContextFile fs inputPath = .ok N →
      E.ReadFile fs (expandHome E signaturePath) = .ok sigData →
      E.CreateTemp fs "" "signature-*.png" = .ok sigFile →
      E.AddWatermarks ((fs.put sigFile []).put sigFile sigData) inputData [toString N]
        (.text ("Werknemer: " ++ employeeName)
          "font:Helvetica, points:10, pos:bl, off:40 210, scale:1 abs, rot:0" true false) =
        .ok d1 →
      E.AddWatermarks ((fs.put sigFile []).put sigFile sigData) d1 [toString N]
        (.text ("Datum: " ++ formatDate E.Now)
          "font:Helvetica, points:10, pos:bl, off:40 195, scale:1 abs, rot:0" true false) =
        .ok d2 →
      E.AddWatermarks ((fs.put sigFile []).put sigFile sigData) d2 [toString N]
        (.text "Handtekening:"
          "font:Helvetica, points:10, pos:bl, off:40 180, scale:1 abs, rot:0" true false) =
        .ok d3 →
      E.AddWatermarks ((fs.put sigFile []).put sigFile sigData) d3 [toString N]
        (.image sigFile "pos:bl, off:120 90, scale:.35 abs, rot:0" true false) = .ok d4 →
      E.AddWatermarks ((fs.put sigFile []).put sigFile sigData) d4 [toString N]
        (.text ("Manager: " ++ managerName)
          "font:Helvetica, points:10, pos:bl, off:350 210, scale:1 abs, rot:0" true false) =
        .ok d5 →
      E.AddWatermarks ((fs.put sigFile []).put sigFile sigData) d5 [toString N]
        (.text "Datum:"
          "font:Helvetica, points:10, pos:bl, off:350 195, scale:1 abs, rot:0" true false) =
        .ok d6 →
      E.AddWatermarks ((fs.put sigFile []).put sigFile sigData) d6 [toString N]
        (.text "Handtekening:"
          "font:Helvetica, points:10, pos:bl, off:350 180, scale:1 abs, rot:0" true false) =
        .ok d7 →
      P [ .readFile inputPath, .readContextFile inputPath, .newDefaultConfiguration,
          .readFile (expandHome E signaturePath), .createTemp "" "signature-*.png",
          .write sigFile sigData, .close sigFile,
          .textWatermark ("Werknemer: " ++ employeeName)
            "font:Helvetica, points:10, pos:bl, off:40 210, scale:1 abs, rot:0",
          .textWatermark ("Datum: " ++ formatDate E.Now)
            "font:Helvetica, points:10, pos:bl, off:40 195, scale:1 abs, rot:0",
          .textWatermark "Handtekening:"
            "font:Helvetica, points:10, pos:bl, off:40 180, scale:1 abs, rot:0",
          .imageWatermark sigFile "pos:bl, off:120 90, scale:.35 abs, rot:0",
          .textWatermark ("Manager: " ++ managerName)
            "font:Helvetica, points:10, pos:bl, off:350 210, scale:1 abs, rot:0",
          .textWatermark "Datum:"
            "font:Helvetica, points:10, pos:bl, off:350 195, scale:1 abs, rot:0",
          .textWatermark "Handtekening:"
            "font:Helvetica, points:10, pos:bl, off:350 180, scale:1 abs, rot:0",
          .addWatermarks inputData [toString N]
            (.text ("Werknemer: " ++ employeeName)
              "font:Helvetica, points:10, pos:bl, off:40 210, scale:1 abs, rot:0" true false)
            none,
          .addWatermarks d1 [toString N]
            (.text ("Datum: " ++ formatDate E.Now)
              "font:Helvetica, points:10, pos:bl, off:40 195, scale:1 abs, rot:0" true false)
            none,
          .addWatermarks d2 [toString N]
            (.text "Handtekening:"
              "font:Helvetica, points:10, pos:bl, off:40 180, scale:1 abs, rot:0" true false)
            none,
          .addWatermarks d3 [toString N]
            (.image sigFile "pos:bl, off:120 90, scale:.35 abs, rot:0" true false) none,
          .addWatermarks d4 [toString N]
            (.text ("Manager: " ++ managerName)
              "font:Helvetica, points:10, pos:bl, off:350 210, scale:1 abs, rot:0" true false)
            none,
          .addWatermarks d5 [toString N]
            (.text "Datum:"
              "font:Helvetica, points:10, pos:bl, off:350 195, scale:1 abs, rot:0" true false)
            none,
          .addWatermarks d6 [toString N]
            (.text "Handtekening:"
              "font:Helvetica, points:10, pos:bl, off:350 180, scale:1 abs, rot:0" true false)
            none,
          .writeFile outputPath d7, .remove sigFile ])
    (h : (signPDF E inputPath outputPath employeeName managerName signaturePath fs).result =
      .ok ()) :
    P (signPDF E inputPath outputPath employeeName managerName signaturePath fs).trace := by
  revert h
  show Act.wp (signPDF E inputPath outputPath employeeName managerName signaturePath) fs
    (fun r _ t => r = .ok () → P t)
  unfold signPDF
  simp only [wp_bind, wp_wrapf, wp_withDefer, wp_osReadFile, wp_apiReadContextFile,
    wp_pdfmodelNewDefaultConfiguration,
    wp_getSignatureData, wp_osCreateTemp, wp_fileWrite, wp_fileClose, wp_apiTextWatermark,
    wp_apiImageWatermark, wp_apiAddWatermarks, wp_osWriteFile, osRemove_fs, osRemove_trace]
  repeat' split
  all_goals intro h
  all_goals cases h
  simp only [List.cons_append, List.nil_append, List.append_nil, List.singleton_append]
  apply hP <;> assumption

/-! ## The date layout -/

theorem toDigitsCore_acc (fuel : Nat) :
    ∀ (n : Nat) (ds : List Char), n < fuel →
      Nat.toDigitsCore 10 fuel n ds = Nat.toDigitsCore 10 (n + 1) n [] ++ ds := by
  induction fuel using Nat.strong_induction_on with
  | _ fuel ih =>
    intro n ds hn
    cases fuel with
    | zero => omega
    | succ fuel =>
      by_cases h0 : n / 10 = 0
      · simp [Nat.toDigitsCore, h0]
      · have hlt : n / 10 < n := Nat.div_lt_self (by omega) (by omega)
        have e1 := ih fuel (by omega) (n / 10) (Nat.digitChar (n % 10) :: ds) (by omega)
        have e2 := ih n (by omega) (n / 10) [Nat.digitChar (n % 10)] hlt
        simp only [Nat.toDigitsCore, h0, if_false]
        rw [e1, e2]
        simp

theorem toDigits_of_lt_ten (n : Nat) (h : n < 10) :
    Nat.toDigits 10 n = [Nat.digitChar n] := by
  have h0 : n / 10 = 0 := Nat.div_eq_of_lt h
  have h1 : n % 10 = n := Nat.mod_eq_of_lt h
  simp [Nat.toDigits, Nat.toDigitsCore, h0, h1]

theorem toDigits_of_ten_le (n : Nat) (h : 10 ≤ n) :
    Nat.toDigits 10 n = Nat.toDigits 10 (n / 10) ++ [Nat.digitChar (n % 10)] := by
  have h0 : n / 10 ≠ 0 := by
    have : 1 ≤ n / 10 := (Nat.one_le_div_iff (by omega)).2 h
    omega
  have hlt : n / 10 < n := Nat.div_lt_self (by omega) (by omega)
  have e := toDigitsCore_acc n (n / 10) [Nat.digitChar (n % 10)] hlt
  have e0 : Nat.toDigitsCore 10 (n + 1) n [] =
      Nat.toDigitsCore 10 n (n / 10) [Nat.digitChar (n % 10)] := by
    simp [Nat.toDigitsCore, h0]
  show Nat.toDigitsCore 10 (n + 1) n [] = Nat.toDigitsCore 10 (n / 10 + 1) (n / 10) [] ++ _
  rw [e0, e]

theorem digitChar_eq_digit (d : Nat) (h : d < 10) : Nat.digitChar d = digit d := by
  interval_cases d <;> decide

theorem toString_data (n : Nat) : (toString n).data = Nat.toDigits 10 n := rfl

theorem digits_one (n : Nat) (h : n < 10) : (toString n).data = [digit n] := by
  rw [toString_data, toDigits_of_lt_ten n h, digitChar_eq_digit n h]

theorem digit_mod (n : Nat) : digit (n % 10) = digit n := by
  simp [digit]

theorem digits_two (n : Nat) (h1 : 10 ≤ n) (h2 : n < 100) :
    (toString n).data = [digit (n / 10), digit n] := by
  rw [toString_data, toDigits_of_ten_le n h1, ← toString_data, digits_one (n / 10) (by omega),
    digitChar_eq_digit _ (Nat.mod_lt _ (by omega)), digit_mod]
  rfl

theorem digits_three (n : Nat) (h1 : 100 ≤ n) (h2 : n < 1000) :
    (toString n).data = [digit (n / 100), digit (n / 10), digit n] := by
  rw [toString_data, toDigits_of_ten_le n (by omega), ← toString_data,
    digits_two (n / 10) (by omega) (by omega),
    digitChar_eq_digit _ (Nat.mod_lt _ (by omega)), digit_mod, Nat.div_div_eq_div_mul]
  rfl

theorem digits_four (n : Nat) (h1 : 1000 ≤ n) (h2 : n < 10000) :
    (toString n).data = [digit (n / 1000), digit (n / 100), digit (n / 10), digit n] := by
  rw [toString_data, toDigits_of_ten_le n (by omega), ← toString_data,
    digits_three (n / 10) (by omega) (by omega),
    digitChar_eq_digit _ (Nat.mod_lt _ (by omega)), digit_mod, Nat.div_div_eq_div_mul,
    Nat.div_div_eq_div_mul]
  rfl

theorem digit_zero_of_lt (n k : Nat) (h : n < k) : digit (n / k) = '0' := by
  rw [Nat.div_eq_of_lt h]
  decide

theorem pad2_data (n : Nat) (h : n < 100) : (pad2 n).data = [digit (n / 10), digit n] := by
  unfold pad2
  split
  · rename_i h1
    rw [String.data_append, digits_one n h1, digit_zero_of_lt n 10 h1]
    rfl
  · exact digits_two n (by omega) h

theorem pad4_data (n : Nat) (h : n < 10000) :
    (pad4 n).data = [digit (n / 1000), digit (n / 100), digit (n / 10), digit n] := by
  unfold pad4
  split
  · rename_i h1
    rw [String.data_append, digits_one n h1, digit_zero_of_lt n 10 h1,
      digit_zero_of_lt n 100 (by omega),
      digit_zero_of_lt n 1000 (by omega)]
    rfl
  · split
    · rw [String.data_append, digits_two n (by omega) (by omega),
        digit_zero_of_lt n 100 (by omega),
        digit_zero_of_lt n 1000 (by omega)]
      rfl
    · split
      · rw [String.data_append, digits_three n (by omega) (by omega),
          digit_zero_of_lt n 1000 (by omega)]
        rfl
      · exact digits_four n (by omega) h

/-- The layout `02-01-2006` writes a date of the first 9999 years as DD-MM-YYYY. -/
theorem formatDate_eq_dateDDMMYYYY (t : Time) (hd : t.Day < 100) (hm : t.Month < 100)
    (hy : t.Year < 10000) : formatDate t = dateDDMMYYYY t := by
  apply String.ext
  unfold formatDate dateDDMMYYYY
  simp only [String.data_append, pad2_data _ hd, pad2_data _ hm, pad4_data _ hy]
  rfl

/-- C3: a run of `signPDF` that returns no error, at a date of the first 9999
years, has read the source bytes and its page count `N`, and has applied exactly
the seven overlays of `overlaySpecs`, the second one carrying the current date
written DD-MM-YYYY, in that order, each on the page selection `[N]`, the first
to the source bytes and each later one to the output of the one before; this is
the left fold of the engine's apply operation over the list, and its result is
what the one call of `os.WriteFile` writes to the destination. -/
theorem signPDF_success_overlays (E : Env) (fs : FS)
    (inputPath outputPath employeeName managerName signaturePath : String)
    (hday : E.Now.Day < 100) (hmonth : E.Now.Month < 100) (hyear : E.Now.Year < 10000)
    (h : (signPDF E inputPath outputPath employeeName managerName signaturePath fs).result =
      .ok ()) :
    ∃ (inputData : Bytes) (N : Int) (sigData : Bytes) (sigFile : String)
      (d1 d2 d3 d4 d5 d6 d7 : Bytes),
      E.ReadFile fs inputPath = .ok inputData ∧
      E.ReadContextFile fs inputPath = .ok N ∧
      E.ReadFile fs (expandHome E signaturePath) = .ok sigData ∧
      E.CreateTemp fs "" "signature-*.png" = .ok sigFile ∧
      applications
          (signPDF E inputPath outputPath employeeName managerName signaturePath fs).trace =
        List.zipWith (fun d wm => Event.addWatermarks d [toString N] wm none)
          [inputData, d1, d2, d3, d4, d5, d6]
          ((overlaySpecs employeeName managerName (dateDDMMYYYY E.Now) sigFile).map
            OverlaySpec.toWatermark) ∧
      (overlayFold E [toString N] inputData
          ((overlaySpecs employeeName managerName (dateDDMMYYYY E.Now) sigFile).map
            OverlaySpec.toWatermark)
          ((fs.put sigFile []).put sigFile sigData)).result = .ok d7 ∧
      (overlayFold E [toString N] inputData
          ((overlaySpecs employeeName managerName (dateDDMMYYYY E.Now) sigFile).map
            OverlaySpec.toWatermark)
          ((fs.put sigFile []).put sigFile sigData)).trace =
        applications
          (signPDF E inputPath outputPath employeeName managerName signaturePath fs).trace ∧
      writes (signPDF E inputPath outputPath employeeName managerName signaturePath fs).trace =
        [.writeFile outputPath d7] := by
  rw [← formatDate_eq_dateDDMMYYYY E.Now hday hmonth hyear]
  refine signPDF_ok_trace E fs inputPath outputPath employeeName managerName signaturePath
    (fun t => ∃ (inputData : Bytes) (N : Int) (sigData : Bytes) (sigFile : String)
      (d1 d2 d3 d4 d5 d6 d7 : Bytes),
      E.ReadFile fs inputPath = .ok inputData ∧
      E.ReadContextFile fs inputPath = .ok N ∧
      E.ReadFile fs (expandHome E signaturePath) = .ok sigData ∧
      E.CreateTemp fs "" "signature-*.png" = .ok sigFile ∧
      applications t =
        List.zipWith (fun d wm => Event.addWatermarks d [toString N] wm none)
          [inputData, d1, d2, d3, d4, d5, d6]
          ((overlaySpecs employeeName managerName (formatDate E.Now) sigFile).map
            OverlaySpec.toWatermark) ∧
      (overlayFold E [toString N] inputData
          ((overlaySpecs employeeName managerName (formatDate E.Now) sigFile).map
            OverlaySpec.toWatermark)
          ((fs.put sigFile []).put sigFile sigData)).result = .ok d7 ∧
      (overlayFold E [toString N] inputData
          ((overlaySpecs employeeName managerName (formatDate E.Now) sigFile).map
            OverlaySpec.toWatermark)
          ((fs.put sigFile []).put sigFile sigData)).trace = applications t ∧
      writes t = [.writeFile outputPath d7]) ?_ h
  intro inputData N sigData sigFile d1 d2 d3 d4 d5 d6 d7 h1 h2 h3 h4 a1 a2 a3 a4 a5 a6 a7
  refine ⟨inputData, N, sigData, sigFile, d1, d2, d3, d4, d5, d6, d7, h1, h2, h3, h4, ?_, ?_, ?_,
    ?_⟩
  · rw [overlaySpecs_watermarks]
    rfl
  · rw [overlaySpecs_watermarks, overlayFold_cons_ok _ _ _ _ _ _ _ a1,
      overlayFold_cons_ok _ _ _ _ _ _ _ a2, overlayFold_cons_ok _ _ _ _ _ _ _ a3,
      overlayFold_cons_ok _ _ _ _ _ _ _ a4, overlayFold_cons_ok _ _ _ _ _ _ _ a5,
      overlayFold_cons_ok _ _ _ _ _ _ _ a6, overlayFold_cons_ok _ _ _ _ _ _ _ a7,
      overlayFold_nil]
    rfl
  · rw [overlaySpecs_watermarks, overlayFold_cons_ok _ _ _ _ _ _ _ a1,
      overlayFold_cons_ok _ _ _ _ _ _ _ a2, overlayFold_cons_ok _ _ _ _ _ _ _ a3,
      overlayFold_cons_ok _ _ _ _ _ _ _ a4, overlayFold_cons_ok _ _ _ _ _ _ _ a5,
      overlayFold_cons_ok _ _ _ _ _ _ _ a6, overlayFold_cons_ok _ _ _ _ _ _ _ a7,
      overlayFold_nil]
    rfl
  · rfl

/-! ## The session state machine -/

theorem Cmd.ofWidget_ne_Quit (c : Option WidgetCmd) : Cmd.ofWidget c ≠ Cmd.Quit := by
  cases c <;> simp [Cmd.ofWidget]

/-- The answer of `updateGlobal` is the quit command only for the quit key on one
of the three quit screens, and then the model is returned as it was. -/
theorem updateGlobal_some (m : model) (msg : Msg) (r : model × Cmd)
    (h : m.updateGlobal msg = some r) :
    (r.2 = .Quit ↔ (msg = .key "q" ∨ msg = .key "ctrl+c") ∧
      (m.screen = .screenMain ∨ m.screen = .screenSetupWelcome ∨ m.screen = .screenResult)) ∧
    (r.2 = .Quit → r.1 = m) := by
  unfold model.updateGlobal at h
  cases msg with
  | windowSize w hgt =>
    simp at h
    subst h
    simp
  | other n => simp at h
  | key k =>
    simp only at h
    split at h
    · rename_i hq
      split at h
      · rename_i hs
        simp at h
        subst h
        refine ⟨⟨fun _ => ⟨?_, hs⟩, fun _ => rfl⟩, fun _ => rfl⟩
        rcases hq with hq | hq <;> simp [hq]
      · simp at h
    · rename_i hq
      split at h
      · split at h
        · rename_i hs
          simp at h
          subst h
          simp [hs]
        · simp at h
      · simp at h

theorem updateGlobal_none_quit (m : model) (k : String) (hk : k = "q" ∨ k = "ctrl+c")
    (h : m.updateGlobal (.key k) = none) :
    ¬ (m.screen = .screenMain ∨ m.screen = .screenSetupWelcome ∨ m.screen = .screenResult) := by
  unfold model.updateGlobal at h
  have hq : k = "ctrl+c" ∨ k = "q" := hk.symm
  simp only [hq, if_true] at h
  split at h
  · simp at h
  · assumption

theorem updateSetupWelcome_cmd (m : model) (msg : Msg) :
    (m.updateSetupWelcome msg).2 ≠ .Quit := by
  unfold model.updateSetupWelcome
  cases msg <;> simp
  split <;> simp

theorem updateSetupSignature_cmd (E : Env) (m : model) (msg : Msg) :
    (m.updateSetupSignature E msg).2 ≠ .Quit := by
  unfold model.updateSetupSignature
  cases msg <;> simp [Cmd.ofWidget_ne_Quit]
  repeat' split
  all_goals simp [Cmd.ofWidget_ne_Quit]

theorem updateSetupEmployee_cmd (E : Env) (m : model) (msg : Msg) :
    (m.updateSetupEmployee E msg).2 ≠ .Quit := by
  unfold model.updateSetupEmployee
  cases msg <;> simp [Cmd.ofWidget_ne_Quit]
  repeat' split
  all_goals simp [Cmd.ofWidget_ne_Quit]

theorem updateSetupManager_cmd (E : Env) (m : model) (msg : Msg) :
    (m.updateSetupManager E msg).2 ≠ .Quit := by
  unfold model.updateSetupManager
  cases msg <;> simp [Cmd.ofWidget_ne_Quit]
  repeat' split
  all_goals simp [Cmd.ofWidget_ne_Quit]

theorem updateSetupConfirm_cmd (E : Env) (m : model) (msg : Msg) (fs : FS) :
    (m.updateSetupConfirm E msg fs).cmd ≠ .Quit := by
  unfold model.updateSetupConfirm
  cases msg <;> simp [Step.pure]
  repeat' split
  all_goals simp

theorem updateMain_cmd (E : Env) (m : model) (msg : Msg) :
    (m.updateMain E msg).2 ≠ .Quit := by
  unfold model.updateMain
  cases msg <;> simp
  repeat' split
  all_goals simp [Cmd.ofWidget_ne_Quit]

theorem updateFilePicker_cmd (E : Env) (m : model) (msg : Msg) (fs : FS) :
    (m.updateFilePicker E msg fs).cmd ≠ .Quit := by
  unfold model.updateFilePicker
  simp only
  split
  · simp
  · simp [Step.pure, Cmd.ofWidget_ne_Quit]

theorem updateResult_cmd (m : model) (msg : Msg) :
    (m.updateResult msg).2 ≠ .Quit := by
  unfold model.updateResult
  cases msg <;> simp
  split <;> simp

/-- When `updateGlobal` lets the message through, the dispatch never answers
with the quit command. -/
theorem Update_dispatch_cmd (E : Env) (m : model) (msg : Msg) (fs : FS)
    (h : m.updateGlobal msg = none) : (m.Update E msg fs).cmd ≠ .Quit := by
  unfold model.Update
  simp only [h]
  cases m.screen <;>
    simp [Step.pure, updateSetupWelcome_cmd, updateSetupSignature_cmd, updateSetupEmployee_cmd,
      updateSetupManager_cmd, updateSetupConfirm_cmd, updateMain_cmd, updateFilePicker_cmd,
      updateResult_cmd]

/-- C5: `Update` answers with the quit command exactly when the key is the quit
key ("q" or "ctrl+c") and the screen is Main, SetupWelcome or Result, and then
the model is returned unchanged; so on the other six screens the quit key never
yields it. -/
theorem Update_quit_iff (E : Env) (m : model) (msg : Msg) (fs : FS) :
    ((m.Update E msg fs).cmd = .Quit ↔
      (msg = .key "q" ∨ msg = .key "ctrl+c") ∧
      (m.screen = .screenMain ∨ m.screen = .screenSetupWelcome ∨
        m.screen = .screenResult)) ∧
    ((m.Update E msg fs).cmd = .Quit → (m.Update E msg fs).next = m) := by
  cases hg : m.updateGlobal msg with
  | some r =>
    have hU : m.Update E msg fs = Step.pure r fs := by
      unfold model.Update
      simp [hg]
    rw [hU]
    exact updateGlobal_some m msg r hg
  | none =>
    have hne := Update_dispatch_cmd E m msg fs hg
    refine ⟨⟨fun h => absurd h hne, ?_⟩, fun h => absurd h hne⟩
    rintro ⟨hk | hk, hs⟩
    · subst hk
      exact absurd hs (updateGlobal_none_quit m "q" (Or.inl rfl) hg)
    · subst hk
      exact absurd hs (updateGlobal_none_quit m "ctrl+c" (Or.inr rfl) hg)

theorem updateGlobal_key_none (m : model) (k : String) (h1 : k ≠ "ctrl+c") (h2 : k ≠ "q")
    (h3 : k ≠ "esc") : m.updateGlobal (.key k) = none := by
  unfold model.updateGlobal
  simp [h1, h2, h3]

/-- C6: on SetupConfirm the accept key ("enter" or "y") persists the draft; when
that succeeds the session is on Main with the draft as configuration and
`configExists` true, and when it fails with `e` the session is on Result with
`resultErr = e`, not on Main. -/
theorem Update_confirm_accept (E : Env) (m : model) (k : String) (fs : FS)
    (hs : m.screen = .screenSetupConfirm) (hk : k = "enter" ∨ k = "y") :
    match (SaveConfig E m.config fs).result with
    | .ok _ =>
      (m.Update E (.key k) fs).next.screen = .screenMain ∧
      (m.Update E (.key k) fs).next.config = m.config ∧
      (m.Update E (.key k) fs).next.configExists = true
    | .error e =>
      (m.Update E (.key k) fs).next.screen = .screenResult ∧
      (m.Update E (.key k) fs).next.resultErr = some e ∧
      (m.Update E (.key k) fs).next.screen ≠ .screenMain := by
  have hg : m.updateGlobal (.key k) = none := by
    apply updateGlobal_key_none <;> rcases hk with hk | hk <;> subst hk <;> decide
  unfold model.Update
  simp only [hg, hs]
  unfold model.updateSetupConfirm
  simp only [hk, if_true]
  cases (SaveConfig E m.config fs).result <;> simp

/-- What the configure key does on Main: it leads to SetupSignature, leaves the
configuration as it was and calls `SetValue` on each of the three fields with
the corresponding value of the configuration. -/
theorem Update_main_configure_fields (E : Env) (m : model) (k : String) (fs : FS)
    (hs : m.screen = .screenMain) (hk : k = "c" ∨ k = "2") :
    (m.Update E (.key k) fs).next.screen = .screenSetupSignature ∧
    (m.Update E (.key k) fs).next.config = m.config ∧
    (m.Update E (.key k) fs).next.inputs.i0 =
      (m.inputs.i0.SetValue E m.config.SignaturePath).Focus ∧
    (m.Update E (.key k) fs).next.inputs.i1 = m.inputs.i1.SetValue E m.config.EmployeeName ∧
    (m.Update E (.key k) fs).next.inputs.i2 = m.inputs.i2.SetValue E m.config.ManagerName := by
  have hg : m.updateGlobal (.key k) = none := by
    apply updateGlobal_key_none <;> rcases hk with hk | hk <;> subst hk <;> decide
  have hns : ¬ (k = "s" ∨ k = "1") := by
    rcases hk with hk | hk <;> subst hk <;> decide
  unfold model.Update
  simp only [hg, hs]
  unfold model.updateMain
  simp [hns, hk, Step.pure]

/-- A value the sanitiser leaves alone and that is within the character limit
(or meets no limit) is stored as it is. -/
theorem SetValue_of_fits (E : Env) (t : TextInput) (v : String)
    (hsan : E.tiSanitize v = v) (hfit : t.CharLimit = 0 ∨ v.length ≤ t.CharLimit) :
    (t.SetValue E v).Value = v := by
  have hnot : ¬ (0 < t.CharLimit ∧ t.CharLimit < v.length) := by
    rintro ⟨h0, h1⟩
    rcases hfit with h | h <;> omega
  simp [TextInput.SetValue, TextInput.Value, hsan, hnot]

/-- C8, where the code departs from it: on Main with a configuration whose
employee name has 150 characters, a name the employee field at start-up holds in
full, the configure key leads to SetupSignature with the configuration
unchanged and an employee field that holds only the first 100 characters, not
the configuration's employee name. -/
theorem Update_main_configure_long_name :
    longNameMain.screen = .screenMain ∧
    longNameMain.config.EmployeeName.length = 150 ∧
    longNameMain.inputs.i1.Value = longNameMain.config.EmployeeName ∧
    (longNameMain.Update longNameEnv (.key "c") configuredFS).next.screen =
      .screenSetupSignature ∧
    (longNameMain.Update longNameEnv (.key "c") configuredFS).next.config =
      longNameMain.config ∧
    (longNameMain.Update longNameEnv (.key "c") configuredFS).next.inputs.i1.Value.length =
      100 ∧
    (longNameMain.Update longNameEnv (.key "c") configuredFS).next.inputs.i1.Value ≠
      longNameMain.config.EmployeeName := by
  decide

/-- C10: on SetupEmployee (resp. SetupManager) the confirm key sets the draft's
employee (resp. manager) name to the field's value, or to the field's
placeholder when the value is empty, leaves the other two draft fields as they
were, and moves on to SetupManager (resp. SetupConfirm). -/
theorem Update_name_confirm (E : Env) (m : model) (fs : FS) :
    (m.screen = .screenSetupEmployee →
      (m.Update E (.key "enter") fs).next.config.EmployeeName =
        (if m.inputs.i1.Value = "" then m.inputs.i1.Placeholder else m.inputs.i1.Value) ∧
      (m.Update E (.key "enter") fs).next.config.SignaturePath = m.config.SignaturePath ∧
      (m.Update E (.key "enter") fs).next.config.ManagerName = m.config.ManagerName ∧
      (m.Update E (.key "enter") fs).next.screen = .screenSetupManager) ∧
    (m.screen = .screenSetupManager →
      (m.Update E (.key "enter") fs).next.config.ManagerName =
        (if m.inputs.i2.Value = "" then m.inputs.i2.Placeholder else m.inputs.i2.Value) ∧
      (m.Update E (.key "enter") fs).next.config.SignaturePath = m.config.SignaturePath ∧
      (m.Update E (.key "enter") fs).next.config.EmployeeName = m.config.EmployeeName ∧
      (m.Update E (.key "enter") fs).next.screen = .screenSetupConfirm) := by
  have hg : m.updateGlobal (.key "enter") = none :=
    updateGlobal_key_none m "enter" (by decide) (by decide) (by decide)
  constructor
  · intro hs
    unfold model.Update
    simp only [hg, hs]
    unfold model.updateSetupEmployee
    simp [Step.pure]
  · intro hs
    unfold model.Update
    simp only [hg, hs]
    unfold model.updateSetupManager
    simp [Step.pure]

theorem wizardInv_initial (E : Env) (fs : FS) : wizardInv (initialModel E fs) := by
  unfold wizardInv initialModel
  cases ConfigExists E fs <;> simp

theorem wizardInv_of_screen (m : model)
    (h1 : m.screen ≠ .screenSetupEmployee) (h2 : m.screen ≠ .screenSetupManager)
    (h3 : m.screen ≠ .screenSetupConfirm) : wizardInv m := by
  unfold wizardInv
  simp [h1, h2, h3]

theorem wizardInv_updateGlobal (m : model) (msg : Msg) (r : model × Cmd)
    (h : m.updateGlobal msg = some r) (hm : wizardInv m) : wizardInv r.1 := by
  unfold model.updateGlobal at h
  cases msg with
  | windowSize w hgt =>
    simp at h
    subst h
    exact hm
  | other n => simp at h
  | key k =>
    simp only at h
    repeat' split at h
    all_goals simp at h
    all_goals subst h
    · exact hm
    · exact wizardInv_of_screen _ (by simp) (by simp) (by simp)

theorem wizardInv_updateSetupSignature (E : Env) (m : model) (msg : Msg)
    (hs : m.screen = .screenSetupSignature) : wizardInv (m.updateSetupSignature E msg).1 := by
  have hfall : ∀ t : TextInput,
      wizardInv { m with inputs := { m.inputs with i0 := t } } :=
    fun t => wizardInv_of_screen _ (by simp [hs]) (by simp [hs]) (by simp [hs])
  unfold model.updateSetupSignature
  cases msg with
  | windowSize w hgt => exact hfall _
  | other n => exact hfall _
  | key k =>
    simp only
    split
    · split
      · exact wizardInv_of_screen _ (by simp [hs]) (by simp [hs]) (by simp [hs])
      · rename_i hv
        unfold wizardInv
        simp [TextInput.Value, TextInput.Blur] at hv ⊢
        exact hv
    · exact hfall _

theorem wizardInv_updateSetupEmployee (E : Env) (m : model) (msg : Msg)
    (hs : m.screen = .screenSetupEmployee) (hm : wizardInv m) :
    wizardInv (m.updateSetupEmployee E msg).1 := by
  have h0 := hm.1 (Or.inl hs)
  have hfall : ∀ t : TextInput,
      wizardInv { m with inputs := { m.inputs with i1 := t } } := by
    intro t
    unfold wizardInv
    simp [hs]
    exact h0
  unfold model.updateSetupEmployee
  cases msg with
  | windowSize w hgt => exact hfall _
  | other n => exact hfall _
  | key k =>
    simp only
    split
    · unfold wizardInv
      simp [TextInput.committed, TextInput.Value, TextInput.Blur]
      exact h0
    · exact hfall _

theorem wizardInv_updateSetupManager (E : Env) (m : model) (msg : Msg)
    (hs : m.screen = .screenSetupManager) (hm : wizardInv m) :
    wizardInv (m.updateSetupManager E msg).1 := by
  have h0 := hm.1 (Or.inr (Or.inl hs))
  have h1 := hm.2.1 (Or.inl hs)
  have hfall : ∀ t : TextInput,
      wizardInv { m with inputs := { m.inputs with i2 := t } } := by
    intro t
    unfold wizardInv
    simp [hs]
    exact ⟨h0, h1⟩
  unfold model.updateSetupManager
  cases msg with
  | windowSize w hgt => exact hfall _
  | other n => exact hfall _
  | key k =>
    simp only
    split
    · unfold wizardInv
      simp [TextInput.committed, TextInput.Value, TextInput.Blur]
      exact ⟨h0, h1⟩
    · exact hfall _

theorem wizardInv_updateSetupConfirm (E : Env) (m : model) (msg : Msg) (fs : FS)
    (hm : wizardInv m) : wizardInv (m.updateSetupConfirm E msg fs).next := by
  unfold model.updateSetupConfirm
  cases msg with
  | windowSize w hgt => exact hm
  | other n => exact hm
  | key k =>
    simp only
    repeat' split
    · exact wizardInv_of_screen _ (by simp) (by simp) (by simp)
    · exact wizardInv_of_screen _ (by simp) (by simp) (by simp)
    · exact wizardInv_of_screen _ (by simp [Step.pure]) (by simp [Step.pure])
        (by simp [Step.pure])
    · exact hm

theorem wizardInv_updateFilePicker (E : Env) (m : model) (msg : Msg) (fs : FS)
    (hs : m.screen = .screenFilePicker) : wizardInv (m.updateFilePicker E msg fs).next := by
  unfold model.updateFilePicker
  simp only
  split
  · exact wizardInv_of_screen _ (by simp) (by simp) (by simp)
  · exact wizardInv_of_screen _ (by simp [Step.pure, hs]) (by simp [Step.pure, hs])
      (by simp [Step.pure, hs])

theorem wizardInv_updateSetupWelcome (m : model) (msg : Msg)
    (hs : m.screen = .screenSetupWelcome) : wizardInv (m.updateSetupWelcome msg).1 := by
  unfold model.updateSetupWelcome
  cases msg with
  | windowSize w hgt => exact wizardInv_of_screen _ (by simp [hs]) (by simp [hs]) (by simp [hs])
  | other n => exact wizardInv_of_screen _ (by simp [hs]) (by simp [hs]) (by simp [hs])
  | key k =>
    simp only
    split
    · exact wizardInv_of_screen _ (by simp) (by simp) (by simp)
    · exact wizardInv_of_screen _ (by simp [hs]) (by simp [hs]) (by simp [hs])

theorem wizardInv_updateMain (E : Env) (m : model) (msg : Msg)
    (hs : m.screen = .screenMain) : wizardInv (m.updateMain E msg).1 := by
  unfold model.updateMain
  cases msg with
  | windowSize w hgt => exact wizardInv_of_screen _ (by simp [hs]) (by simp [hs]) (by simp [hs])
  | other n => exact wizardInv_of_screen _ (by simp [hs]) (by simp [hs]) (by simp [hs])
  | key k =>
    simp only
    repeat' split
    · exact wizardInv_of_screen _ (by simp) (by simp) (by simp)
    · exact wizardInv_of_screen _ (by simp) (by simp) (by simp)
    · exact wizardInv_of_screen _ (by simp [hs]) (by simp [hs]) (by simp [hs])

theorem wizardInv_updateResult (m : model) (msg : Msg)
    (hs : m.screen = .screenResult) : wizardInv (m.updateResult msg).1 := by
  unfold model.updateResult
  cases msg with
  | windowSize w hgt => exact wizardInv_of_screen _ (by simp [hs]) (by simp [hs]) (by simp [hs])
  | other n => exact wizardInv_of_screen _ (by simp [hs]) (by simp [hs]) (by simp [hs])
  | key k =>
    simp only
    split
    · exact wizardInv_of_screen _ (by simp) (by simp) (by simp)
    · exact wizardInv_of_screen _ (by simp [hs]) (by simp [hs]) (by simp [hs])

/-- Every call of `Update` keeps the wizard's bookkeeping. -/
theorem wizardInv_step (E : Env) (m : model) (msg : Msg) (fs : FS) (hm : wizardInv m) :
    wizardInv (m.Update E msg fs).next := by
  unfold model.Update
  cases hg : m.updateGlobal msg with
  | some r => exact wizardInv_updateGlobal m msg r hg hm
  | none =>
    simp only
    cases hs : m.screen with
    | screenSetupWelcome => exact wizardInv_updateSetupWelcome m msg hs
    | screenSetupSignature => exact wizardInv_updateSetupSignature E m msg hs
    | screenSetupEmployee => exact wizardInv_updateSetupEmployee E m msg hs hm
    | screenSetupManager => exact wizardInv_updateSetupManager E m msg hs hm
    | screenSetupConfirm => exact wizardInv_updateSetupConfirm E m msg fs hm
    | screenMain => exact wizardInv_updateMain E m msg hs
    | screenFilePicker => exact wizardInv_updateFilePicker E m msg fs hs
    | screenResult => exact wizardInv_updateResult m msg hs
    | screenSigning => exact hm

/-- The wizard's bookkeeping holds in every reachable session state. -/
theorem wizardInv_of_reachable (m : model) (h : Reachable m) : wizardInv m := by
  induction h with
  | init E fs => exact wizardInv_initial E fs
  | step E fs m msg _ ih => exact wizardInv_step E m msg fs ih

theorem editedSession_reachable : Reachable editedSession :=
  Reachable.step _ _ _ _ (Reachable.step _ _ _ _ (Reachable.step _ _ _ _
    (Reachable.step _ _ _ _ (Reachable.init editedEnv configuredFS))))

/-- C7, as the code has it: in every reachable session state on SetupConfirm the
reject key ("n") leads to SetupSignature with the draft as it was and the three
fields as they were, not re-populated (the first one focused, its value kept):
the signature field holds the draft's signature path, and each name field
stands for the draft's name, holding it or being empty with the draft's name
equal to the field's placeholder. -/
theorem Update_confirm_reject (E : Env) (m : model) (fs : FS) (hr : Reachable m)
    (hs : m.screen = .screenSetupConfirm) :
    (m.Update E (.key "n") fs).next.screen = .screenSetupSignature ∧
    (m.Update E (.key "n") fs).next.config = m.config ∧
    (m.Update E (.key "n") fs).next.inputs.i0 = m.inputs.i0.Focus ∧
    (m.Update E (.key "n") fs).next.inputs.i0.Value = m.inputs.i0.Value ∧
    (m.Update E (.key "n") fs).next.inputs.i1 = m.inputs.i1 ∧
    (m.Update E (.key "n") fs).next.inputs.i2 = m.inputs.i2 ∧
    (m.Update E (.key "n") fs).next.inputs.i0.Value =
      (m.Update E (.key "n") fs).next.config.SignaturePath ∧
    (m.Update E (.key "n") fs).next.config.EmployeeName =
      (m.Update E (.key "n") fs).next.inputs.i1.committed ∧
    (m.Update E (.key "n") fs).next.config.ManagerName =
      (m.Update E (.key "n") fs).next.inputs.i2.committed := by
  have hm := wizardInv_of_reachable m hr
  have hg : m.updateGlobal (.key "n") = none :=
    updateGlobal_key_none m "n" (by decide) (by decide) (by decide)
  have hU : (m.Update E (.key "n") fs).next =
      { m with screen := .screenSetupSignature,
               inputs := { m.inputs with i0 := m.inputs.i0.Focus } } := by
    unfold model.Update
    simp only [hg, hs]
    unfold model.updateSetupConfirm
    simp [Step.pure]
  rw [hU]
  refine ⟨rfl, rfl, rfl, rfl, rfl, rfl, ?_, ?_, ?_⟩
  · exact (hm.1 (Or.inr (Or.inr hs))).1
  · exact hm.2.1 (Or.inr hs)
  · exact hm.2.2 hs

/-- C7, refuted as stated: a session started on a configuration file with an
empty employee name reaches SetupConfirm through "configure" and three confirm
keys; the reject key then leads to SetupSignature with an empty employee field,
while the draft's employee name is the placeholder. -/
theorem reject_leaves_empty_employee_field :
    Reachable editedSession ∧
    editedSession.screen = .screenSetupConfirm ∧
    (editedSession.Update editedEnv (.key "n") configuredFS).next.screen =
      .screenSetupSignature ∧
    (editedSession.Update editedEnv (.key "n") configuredFS).next.inputs.i1.Value = "" ∧
    (editedSession.Update editedEnv (.key "n") configuredFS).next.config.EmployeeName =
      "JoÃ«l Grimberg" :=
  ⟨editedSession_reachable, by decide, by decide, by decide, by decide⟩

/-- C9: on SetupSignature the confirm key with an empty field changes nothing
(same model, no command, no call), and with a non-empty value `v` it moves on to
SetupEmployee with `v` as the draft's signature path; hence in every reachable
session state on SetupEmployee, SetupManager or SetupConfirm the draft's
signature path is not empty. -/
theorem signature_path_never_empty :
    (∀ (E : Env) (m : model) (fs : FS), m.screen = .screenSetupSignature →
      m.inputs.i0.Value = "" →
      m.Update E (.key "enter") fs = { next := m, cmd := .none, fs := fs, trace := [] }) ∧
    (∀ (E : Env) (m : model) (fs : FS) (v : String), m.screen = .screenSetupSignature →
      m.inputs.i0.Value = v → v ≠ "" →
      (m.Update E (.key "enter") fs).next.screen = .screenSetupEmployee ∧
      (m.Update E (.key "enter") fs).next.config.SignaturePath = v) ∧
    (∀ m : model, Reachable m →
      (m.screen = .screenSetupEmployee ∨ m.screen = .screenSetupManager ∨
        m.screen = .screenSetupConfirm) →
      m.config.SignaturePath ≠ "") := by
  refine ⟨?_, ?_, ?_⟩
  · intro E m fs hs hv
    have hg : m.updateGlobal (.key "enter") = none :=
      updateGlobal_key_none m "enter" (by decide) (by decide) (by decide)
    unfold model.Update
    simp only [hg, hs]
    unfold model.updateSetupSignature
    simp [hv, Step.pure]
  · intro E m fs v hs hv hne
    have hg : m.updateGlobal (.key "enter") = none :=
      updateGlobal_key_none m "enter" (by decide) (by decide) (by decide)
    unfold model.Update
    simp only [hg, hs]
    unfold model.updateSetupSignature
    simp [hv, hne, Step.pure]
  · intro m hr hs
    exact ((wizardInv_of_reachable m hr).1 hs).2

/-! ## The configuration changes only in the wizard -/

theorem updateGlobal_config (m : model) (msg : Msg) (r : model × Cmd)
    (h : m.updateGlobal msg = some r) : r.1.config = m.config := by
  unfold model.updateGlobal at h
  cases msg with
  | windowSize w hgt =>
    simp at h
    subst h
    rfl
  | other n => simp at h
  | key k =>
    simp only at h
    repeat' split at h
    all_goals simp at h
    all_goals subst h
    all_goals rfl

theorem updateSetupWelcome_config (m : model) (msg : Msg) :
    (m.updateSetupWelcome msg).1.config = m.config := by
  unfold model.updateSetupWelcome
  cases msg with
  | windowSize w hgt => rfl
  | other n => rfl
  | key k =>
    simp only
    split <;> rfl

theorem updateSetupConfirm_config (E : Env) (m : model) (msg : Msg) (fs : FS) :
    (m.updateSetupConfirm E msg fs).next.config = m.config := by
  unfold model.updateSetupConfirm
  cases msg with
  | windowSize w hgt => rfl
  | other n => rfl
  | key k =>
    simp only
    repeat' split
    all_goals rfl

theorem updateMain_config (E : Env) (m : model) (msg : Msg) :
    (m.updateMain E msg).1.config = m.config := by
  unfold model.updateMain
  cases msg with
  | windowSize w hgt => rfl
  | other n => rfl
  | key k =>
    simp only
    repeat' split
    all_goals rfl

theorem updateFilePicker_config (E : Env) (m : model) (msg : Msg) (fs : FS) :
    (m.updateFilePicker E msg fs).next.config = m.config := by
  unfold model.updateFilePicker
  simp only
  split
  · split <;> rfl
  · rfl

theorem updateResult_config (m : model) (msg : Msg) :
    (m.updateResult msg).1.config = m.config := by
  unfold model.updateResult
  cases msg with
  | windowSize w hgt => rfl
  | other n => rfl
  | key k =>
    simp only
    split <;> rfl

theorem updateSetupSignature_config (E : Env) (m : model) (msg : Msg)
    (h : msg ≠ .key "enter") : (m.updateSetupSignature E msg).1.config = m.config := by
  unfold model.updateSetupSignature
  cases msg with
  | windowSize w hgt => rfl
  | other n => rfl
  | key k =>
    have hk : k ≠ "enter" := fun hk => h (by rw [hk])
    simp [hk]

theorem updateSetupEmployee_config (E : Env) (m : model) (msg : Msg)
    (h : msg ≠ .key "enter") : (m.updateSetupEmployee E msg).1.config = m.config := by
  unfold model.updateSetupEmployee
  cases msg with
  | windowSize w hgt => rfl
  | other n => rfl
  | key k =>
    have hk : k ≠ "enter" := fun hk => h (by rw [hk])
    simp [hk]

theorem updateSetupManager_config (E : Env) (m : model) (msg : Msg)
    (h : msg ≠ .key "enter") : (m.updateSetupManager E msg).1.config = m.config := by
  unfold model.updateSetupManager
  cases msg with
  | windowSize w hgt => rfl
  | other n => rfl
  | key k =>
    have hk : k ≠ "enter" := fun hk => h (by rw [hk])
    simp [hk]

/-- C11: `Update` changes the session's configuration only in the setup wizard:
when the returned model's configuration differs from the given one, the screen
was SetupSignature, SetupEmployee or SetupManager and the message was the
confirm key; so every message on Main, SetupWelcome, FilePicker, Result and
SetupConfirm (the reject key "n" too) leaves the configuration as it was. -/
theorem Update_config_frame (E : Env) (m : model) (msg : Msg) (fs : FS) :
    ((m.Update E msg fs).next.config ≠ m.config →
      (m.screen = .screenSetupSignature ∨ m.screen = .screenSetupEmployee ∨
        m.screen = .screenSetupManager) ∧ msg = .key "enter") ∧
    ((m.screen = .screenMain ∨ m.screen = .screenSetupWelcome ∨
        m.screen = .screenFilePicker ∨ m.screen = .screenResult ∨
        m.screen = .screenSetupConfirm) →
      (m.Update E msg fs).next.config = m.config) := by
  cases hg : m.updateGlobal msg with
  | some r =>
    have hU : (m.Update E msg fs).next.config = m.config := by
      unfold model.Update
      simp only [hg, Step.pure]
      exact updateGlobal_config m msg r hg
    exact ⟨fun h => absurd hU h, fun _ => hU⟩
  | none =>
    by_cases hmsg : msg = .key "enter"
    · subst hmsg
      cases hs : m.screen <;>
        simp [model.Update, hg, hs, Step.pure, updateSetupWelcome_config,
          updateSetupConfirm_config, updateMain_config, updateFilePicker_config,
          updateResult_config]
    · cases hs : m.screen <;>
        simp [model.Update, hg, hs, hmsg, Step.pure, updateSetupWelcome_config,
          updateSetupConfirm_config, updateMain_config, updateFilePicker_config,
          updateResult_config, updateSetupSignature_config, updateSetupEmployee_config,
          updateSetupManager_config]

/-! ## The theorems at sample inputs -/

theorem signPDF_overlay_failure_witness :
    (1 ≤ 4 ∧ 4 ≤ 7 ∧
      (applied (signPDF noImageEnv "in.pdf" "out.pdf" "Joel" "Rob" "sig.png"
        sampleFS).trace)[4 - 1]? = some (some "unsupported image")) ∧
    ((∀ i, i < 4 - 1 →
      (applied (signPDF noImageEnv "in.pdf" "out.pdf" "Joel" "Rob" "sig.png"
        sampleFS).trace)[i]? = some none) ∧
    (∃ name, overlayStepNames[4 - 1]? = some name ∧
      (signPDF noImageEnv "in.pdf" "out.pdf" "Joel" "Rob" "sig.png" sampleFS).result =
        .error ("failed to add " ++ name ++ ": " ++ "unsupported image")) ∧
    (applied (signPDF noImageEnv "in.pdf" "out.pdf" "Joel" "Rob" "sig.png"
      sampleFS).trace).length = 4 ∧
    writes (signPDF noImageEnv "in.pdf" "out.pdf" "Joel" "Rob" "sig.png" sampleFS).trace = [] ∧
    ∀ d, (signPDF noImageEnv "in.pdf" "out.pdf" "Joel" "Rob" "sig.png" sampleFS).fs
      "out.pdf" = some d → sampleFS "out.pdf" = some d) :=
  ⟨⟨by decide, by decide, by decide⟩,
    signPDF_overlay_failure noImageEnv sampleFS "in.pdf" "out.pdf" "Joel" "Rob" "sig.png" 4
      "unsupported image" (by decide) (by decide) (by decide)⟩

theorem signPDF_success_overlays_witness :
    (sampleEnv.Now.Day < 100 ∧ sampleEnv.Now.Month < 100 ∧ sampleEnv.Now.Year < 10000 ∧
      dateDDMMYYYY sampleEnv.Now = "09-03-2026" ∧
      (signPDF sampleEnv "in.pdf" "out.pdf" "Joel" "Rob" "sig.png" sampleFS).result = .ok ()) ∧
    ∃ (inputData : Bytes) (N : Int) (sigData : Bytes) (sigFile : String)
      (d1 d2 d3 d4 d5 d6 d7 : Bytes),
      sampleEnv.ReadFile sampleFS "in.pdf" = .ok inputData ∧
      sampleEnv.ReadContextFile sampleFS "in.pdf" = .ok N ∧
      sampleEnv.ReadFile sampleFS (expandHome sampleEnv "sig.png") = .ok sigData ∧
      sampleEnv.CreateTemp sampleFS "" "signature-*.png" = .ok sigFile ∧
      applications (signPDF sampleEnv "in.pdf" "out.pdf" "Joel" "Rob" "sig.png" sampleFS).trace =
        List.zipWith (fun d wm => Event.addWatermarks d [toString N] wm none)
          [inputData, d1, d2, d3, d4, d5, d6]
          ((overlaySpecs "Joel" "Rob" (dateDDMMYYYY sampleEnv.Now) sigFile).map
            OverlaySpec.toWatermark) ∧
      (overlayFold sampleEnv [toString N] inputData
          ((overlaySpecs "Joel" "Rob" (dateDDMMYYYY sampleEnv.Now) sigFile).map
            OverlaySpec.toWatermark)
          ((sampleFS.put sigFile []).put sigFile sigData)).result = .ok d7 ∧
      (overlayFold sampleEnv [toString N] inputData
          ((overlaySpecs "Joel" "Rob" (dateDDMMYYYY sampleEnv.Now) sigFile).map
            OverlaySpec.toWatermark)
          ((sampleFS.put sigFile []).put sigFile sigData)).trace =
        applications
          (signPDF sampleEnv "in.pdf" "out.pdf" "Joel" "Rob" "sig.png" sampleFS).trace ∧
      writes (signPDF sampleEnv "in.pdf" "out.pdf" "Joel" "Rob" "sig.png" sampleFS).trace =
        [.writeFile "out.pdf" d7] :=
  ⟨⟨by decide, by decide, by decide, by decide, rfl⟩,
    signPDF_success_overlays sampleEnv sampleFS "in.pdf" "out.pdf" "Joel" "Rob" "sig.png"
      (by decide) (by decide) (by decide) rfl⟩

theorem signPDF_temp_file_absent_witness :
    sampleEnv.CreateTemp sampleFS "" "signature-*.png" = .ok "/tmp/signature-1.png" ∧
    sampleFS "/tmp/signature-1.png" = none ∧
    (signPDF sampleEnv "in.pdf" "out.pdf" "Joel" "Rob" "sig.png" sampleFS).fs
      "/tmp/signature-1.png" = none :=
  ⟨rfl, by decide,
    signPDF_temp_file_absent sampleEnv sampleFS "in.pdf" "out.pdf" "Joel" "Rob" "sig.png"
      "/tmp/signature-1.png" rfl (by decide)⟩

theorem Update_quit_iff_witness :
    (editedMain.Update editedEnv (.key "q") configuredFS).cmd = .Quit ∧
    (editedMain.Update editedEnv (.key "q") configuredFS).next = editedMain ∧
    (editedEmployee.Update editedEnv (.key "q") configuredFS).cmd ≠ .Quit :=
  ⟨(Update_quit_iff editedEnv editedMain (.key "q") configuredFS).1.2
      ⟨Or.inl rfl, Or.inl (by decide)⟩,
    (Update_quit_iff editedEnv editedMain (.key "q") configuredFS).2 (by decide),
    fun h => absurd ((Update_quit_iff editedEnv editedEmployee (.key "q") configuredFS).1.1 h).2
      (by decide)⟩

theorem Update_confirm_accept_witness :
    editedSession.screen = .screenSetupConfirm ∧ ("enter" = "enter" ∨ "enter" = "y") ∧
    (match (SaveConfig readOnlyEnv editedSession.config configuredFS).result with
    | .ok _ =>
      (editedSession.Update readOnlyEnv (.key "enter") configuredFS).next.screen = .screenMain ∧
      (editedSession.Update readOnlyEnv (.key "enter") configuredFS).next.config =
        editedSession.config ∧
      (editedSession.Update readOnlyEnv (.key "enter") configuredFS).next.configExists = true
    | .error e =>
      (editedSession.Update readOnlyEnv (.key "enter") configuredFS).next.screen =
        .screenResult ∧
      (editedSession.Update readOnlyEnv (.key "enter") configuredFS).next.resultErr = some e ∧
      (editedSession.Update readOnlyEnv (.key "enter") configuredFS).next.screen ≠
        .screenMain) :=
  ⟨by decide, Or.inl rfl,
    Update_confirm_accept readOnlyEnv editedSession "enter" configuredFS (by decide)
      (Or.inl rfl)⟩

theorem Update_confirm_reject_witness :
    Reachable editedSession ∧ editedSession.screen = .screenSetupConfirm ∧
    (editedSession.Update editedEnv (.key "n") configuredFS).next.screen =
      .screenSetupSignature ∧
    (editedSession.Update editedEnv (.key "n") configuredFS).next.config =
      editedSession.config ∧
    (editedSession.Update editedEnv (.key "n") configuredFS).next.inputs.i0 =
      editedSession.inputs.i0.Focus ∧
    (editedSession.Update editedEnv (.key "n") configuredFS).next.inputs.i0.Value =
      editedSession.inputs.i0.Value ∧
    (editedSession.Update editedEnv (.key "n") configuredFS).next.inputs.i1 =
      editedSession.inputs.i1 ∧
    (editedSession.Update editedEnv (.key "n") configuredFS).next.inputs.i2 =
      editedSession.inputs.i2 ∧
    (editedSession.Update editedEnv (.key "n") configuredFS).next.inputs.i0.Value =
      (editedSession.Update editedEnv (.key "n") configuredFS).next.config.SignaturePath ∧
    (editedSession.Update editedEnv (.key "n") configuredFS).next.config.EmployeeName =
      (editedSession.Update editedEnv (.key "n") configuredFS).next.inputs.i1.committed ∧
    (editedSession.Update editedEnv (.key "n") configuredFS).next.config.ManagerName =
      (editedSession.Update editedEnv (.key "n") configuredFS).next.inputs.i2.committed :=
  ⟨editedSession_reachable, by decide,
    Update_confirm_reject editedEnv editedSession configuredFS editedSession_reachable
      (by decide)⟩

theorem signature_path_never_empty_witness :
    (sampleSession.screen = .screenSetupSignature ∧ sampleSession.inputs.i0.Value = "" ∧
      sampleSession.Update sampleEnv (.key "enter") sampleFS =
        { next := sampleSession, cmd := .none, fs := sampleFS, trace := [] }) ∧
    (editedSignature.screen = .screenSetupSignature ∧
      editedSignature.inputs.i0.Value = "sig.png" ∧
      (editedSignature.Update editedEnv (.key "enter") configuredFS).next.screen =
        .screenSetupEmployee ∧
      (editedSignature.Update editedEnv (.key "enter") configuredFS).next.config.SignaturePath =
        "sig.png") ∧
    (Reachable editedSession ∧ editedSession.screen = .screenSetupConfirm ∧
      editedSession.config.SignaturePath ≠ "") :=
  ⟨⟨by decide, by decide,
      signature_path_never_empty.1 sampleEnv sampleSession sampleFS (by decide) (by decide)⟩,
    ⟨by decide, by decide,
      signature_path_never_empty.2.1 editedEnv editedSignature configuredFS "sig.png"
        (by decide) (by decide) (by decide)⟩,
    ⟨editedSession_reachable, by decide,
      signature_path_never_empty.2.2 editedSession editedSession_reachable
        (Or.inr (Or.inr (by decide)))⟩⟩

theorem Update_name_confirm_witness :
    (editedEmployee.screen = .screenSetupEmployee ∧ editedEmployee.inputs.i1.Value = "" ∧
      (editedEmployee.Update editedEnv (.key "enter") configuredFS).next.config.EmployeeName =
        (if editedEmployee.inputs.i1.Value = "" then editedEmployee.inputs.i1.Placeholder
          else editedEmployee.inputs.i1.Value) ∧
      (editedEmployee.Update editedEnv (.key "enter") configuredFS).next.config.SignaturePath =
        editedEmployee.config.SignaturePath ∧
      (editedEmployee.Update editedEnv (.key "enter") configuredFS).next.config.ManagerName =
        editedEmployee.config.ManagerName ∧
      (editedEmployee.Update editedEnv (.key "enter") configuredFS).next.screen =
        .screenSetupManager) ∧
    (editedManager.screen = .screenSetupManager ∧ editedManager.inputs.i2.Value = "Rob" ∧
      (editedManager.Update editedEnv (.key "enter") configuredFS).next.config.ManagerName =
        (if editedManager.inputs.i2.Value = "" then editedManager.inputs.i2.Placeholder
          else editedManager.inputs.i2.Value) ∧
      (editedManager.Update editedEnv (.key "enter") configuredFS).next.config.SignaturePath =
        editedManager.config.SignaturePath ∧
      (editedManager.Update editedEnv (.key "enter") configuredFS).next.config.EmployeeName =
        editedManager.config.EmployeeName ∧
      (editedManager.Update editedEnv (.key "enter") configuredFS).next.screen =
        .screenSetupConfirm) :=
  ⟨⟨by decide, by decide,
      (Update_name_confirm editedEnv editedEmployee configuredFS).1 (by decide)⟩,
    ⟨by decide, by decide,
      (Update_name_confirm editedEnv editedManager configuredFS).2 (by decide)⟩⟩

theorem Update_config_frame_witness :
    ((editedEmployee.Update editedEnv (.key "enter") configuredFS).next.config ≠
        editedEmployee.config ∧
      (editedEmployee.screen = .screenSetupSignature ∨
        editedEmployee.screen = .screenSetupEmployee ∨
        editedEmployee.screen = .screenSetupManager) ∧
      Msg.key "enter" = Msg.key "enter") ∧
    (editedSession.screen = .screenSetupConfirm ∧
      (editedSession.Update editedEnv (.key "n") configuredFS).next.config =
        editedSession.config) :=
  ⟨⟨by decide,
      (Update_config_frame editedEnv editedEmployee (.key "enter") configuredFS).1
        (by decide)⟩,
    ⟨by decide,
      (Update_config_frame editedEnv editedSession (.key "n") configuredFS).2
        (Or.inr (Or.inr (Or.inr (Or.inr (by decide)))))⟩⟩

end HoursSigner
